import Mathlib

/-!
# Verification of the `uttori-audio-padinfo` pattern codec

Shallow embedding of `src/audio-pattern.js` (class `AudioPattern`): the SP-404
pattern parser (`parse`), the pattern-to-MIDI converter (`toMidi`) and the
MIDI-to-pattern converter (static `AudioPattern.fromMidi`), together with the
static pad mapping tables (`defaultMap`, `defaultMapOG`).

Conventions of the embedding:

* JS byte buffers are `List Nat` (each element a byte value).
* JS numbers are embedded as `Int` where only integer arithmetic occurs, and as
  `Rat` where the source multiplies by the PPQN conversion factor and rounds;
  `Math.round` (round half toward positive infinity) is `jsRound`.
* `DataBuffer` (package `@uttori/data-tools`, not part of this repository's
  sources) is modelled from the spec's ByteCursor description: a read that
  needs more bytes than remain fails (`Option.none`); the write side is a
  growable store of byte values and a `Uint8Array` backing store truncates a
  stored value mod 256 (`jsToUint8`).  `fromMidi` output records keep the exact
  values passed to the write calls so that out-of-range writes stay visible.
* JS `Array.prototype.sort` with comparator `(a, b) => a.absoluteTime - b.absoluteTime`
  is a stable sort ordered by `absoluteTime`; it is modelled by
  `List.insertionSort`, which is stable in the same sense.
-/

namespace AudioPattern

deriving instance DecidableEq for Except

/-- One entry of the static pad tables: `{ midiNote, pad, bankSwitch }`. -/
structure PadMapping where
  midiNote : Nat
  pad : String
  bankSwitch : Nat
deriving DecidableEq, Repr

/-- The static `AudioPattern.defaultMap` table (current hardware, banks A-J of
16 pads), in source order. -/
def defaultMapListBankA : List PadMapping := [
  ⟨47, "A1", 64⟩,
  ⟨48, "A2", 64⟩,
  ⟨49, "A3", 64⟩,
  ⟨50, "A4", 64⟩,
  ⟨51, "A5", 64⟩,
  ⟨52, "A6", 64⟩,
  ⟨53, "A7", 64⟩,
  ⟨54, "A8", 64⟩,
  ⟨55, "A9", 64⟩,
  ⟨56, "A10", 64⟩,
  ⟨57, "A11", 64⟩,
  ⟨58, "A12", 64⟩,
  ⟨59, "A13", 64⟩,
  ⟨60, "A14", 64⟩,
  ⟨61, "A15", 64⟩,
  ⟨62, "A16", 64⟩]

def defaultMapListBankB : List PadMapping := [
  ⟨63, "B1", 64⟩,
  ⟨64, "B2", 64⟩,
  ⟨65, "B3", 64⟩,
  ⟨66, "B4", 64⟩,
  ⟨67, "B5", 64⟩,
  ⟨68, "B6", 64⟩,
  ⟨69, "B7", 64⟩,
  ⟨70, "B8", 64⟩,
  ⟨71, "B9", 64⟩,
  ⟨72, "B10", 64⟩,
  ⟨73, "B11", 64⟩,
  ⟨74, "B12", 64⟩,
  ⟨75, "B13", 64⟩,
  ⟨76, "B14", 64⟩,
  ⟨77, "B15", 64⟩,
  ⟨78, "B16", 64⟩]

def defaultMapListBankC : List PadMapping := [
  ⟨79, "C1", 64⟩,
  ⟨80, "C2", 64⟩,
  ⟨81, "C3", 64⟩,
  ⟨82, "C4", 64⟩,
  ⟨83, "C5", 64⟩,
  ⟨84, "C6", 64⟩,
  ⟨85, "C7", 64⟩,
  ⟨86, "C8", 64⟩,
  ⟨87, "C9", 64⟩,
  ⟨88, "C10", 64⟩,
  ⟨89, "C11", 64⟩,
  ⟨90, "C12", 64⟩,
  ⟨91, "C13", 64⟩,
  ⟨92, "C14", 64⟩,
  ⟨93, "C15", 64⟩,
  ⟨94, "C16", 64⟩]

def defaultMapListBankD : List PadMapping := [
  ⟨95, "D1", 64⟩,
  ⟨96, "D2", 64⟩,
  ⟨97, "D3", 64⟩,
  ⟨98, "D4", 64⟩,
  ⟨99, "D5", 64⟩,
  ⟨100, "D6", 64⟩,
  ⟨101, "D7", 64⟩,
  ⟨102, "D8", 64⟩,
  ⟨103, "D9", 64⟩,
  ⟨104, "D10", 64⟩,
  ⟨105, "D11", 64⟩,
  ⟨106, "D12", 64⟩,
  ⟨107, "D13", 64⟩,
  ⟨108, "D14", 64⟩,
  ⟨109, "D15", 64⟩,
  ⟨110, "D16", 64⟩]

def defaultMapListBankE : List PadMapping := [
  ⟨111, "E1", 64⟩,
  ⟨112, "E2", 64⟩,
  ⟨113, "E3", 64⟩,
  ⟨114, "E4", 64⟩,
  ⟨115, "E5", 64⟩,
  ⟨116, "E6", 64⟩,
  ⟨117, "E7", 64⟩,
  ⟨118, "E8", 64⟩,
  ⟨119, "E9", 64⟩,
  ⟨120, "E10", 64⟩,
  ⟨121, "E11", 64⟩,
  ⟨122, "E12", 64⟩,
  ⟨123, "E13", 64⟩,
  ⟨124, "E14", 64⟩,
  ⟨125, "E15", 64⟩,
  ⟨126, "E16", 64⟩]

def defaultMapListBankF : List PadMapping := [
  ⟨47, "F1", 65⟩,
  ⟨48, "F2", 65⟩,
  ⟨49, "F3", 65⟩,
  ⟨50, "F4", 65⟩,
  ⟨51, "F5", 65⟩,
  ⟨52, "F6", 65⟩,
  ⟨53, "F7", 65⟩,
  ⟨54, "F8", 65⟩,
  ⟨55, "F9", 65⟩,
  ⟨56, "F10", 65⟩,
  ⟨57, "F11", 65⟩,
  ⟨58, "F12", 65⟩,
  ⟨59, "F13", 65⟩,
  ⟨60, "F14", 65⟩,
  ⟨61, "F15", 65⟩,
  ⟨62, "F16", 65⟩]

def defaultMapListBankG : List PadMapping := [
  ⟨63, "G1", 65⟩,
  ⟨64, "G2", 65⟩,
  ⟨65, "G3", 65⟩,
  ⟨66, "G4", 65⟩,
  ⟨67, "G5", 65⟩,
  ⟨68, "G6", 65⟩,
  ⟨69, "G7", 65⟩,
  ⟨70, "G8", 65⟩,
  ⟨71, "G9", 65⟩,
  ⟨72, "G10", 65⟩,
  ⟨73, "G11", 65⟩,
  ⟨74, "G12", 65⟩,
  ⟨75, "G13", 65⟩,
  ⟨76, "G14", 65⟩,
  ⟨77, "G15", 65⟩,
  ⟨78, "G16", 65⟩]

def defaultMapListBankH : List PadMapping := [
  ⟨79, "H1", 65⟩,
  ⟨80, "H2", 65⟩,
  ⟨81, "H3", 65⟩,
  ⟨82, "H4", 65⟩,
  ⟨83, "H5", 65⟩,
  ⟨84, "H6", 65⟩,
  ⟨85, "H7", 65⟩,
  ⟨86, "H8", 65⟩,
  ⟨87, "H9", 65⟩,
  ⟨88, "H10", 65⟩,
  ⟨89, "H11", 65⟩,
  ⟨90, "H12", 65⟩,
  ⟨91, "H13", 65⟩,
  ⟨92, "H14", 65⟩,
  ⟨93, "H15", 65⟩,
  ⟨94, "H16", 65⟩]

def defaultMapListBankI : List PadMapping := [
  ⟨95, "I1", 65⟩,
  ⟨96, "I2", 65⟩,
  ⟨97, "I3", 65⟩,
  ⟨98, "I4", 65⟩,
  ⟨99, "I5", 65⟩,
  ⟨100, "I6", 65⟩,
  ⟨101, "I7", 65⟩,
  ⟨102, "I8", 65⟩,
  ⟨103, "I9", 65⟩,
  ⟨104, "I10", 65⟩,
  ⟨105, "I11", 65⟩,
  ⟨106, "I12", 65⟩,
  ⟨107, "I13", 65⟩,
  ⟨108, "I14", 65⟩,
  ⟨109, "I15", 65⟩,
  ⟨110, "I16", 65⟩]

def defaultMapListBankJ : List PadMapping := [
  ⟨111, "J1", 65⟩,
  ⟨112, "J2", 65⟩,
  ⟨113, "J3", 65⟩,
  ⟨114, "J4", 65⟩,
  ⟨115, "J5", 65⟩,
  ⟨116, "J6", 65⟩,
  ⟨117, "J7", 65⟩,
  ⟨118, "J8", 65⟩,
  ⟨119, "J9", 65⟩,
  ⟨120, "J10", 65⟩,
  ⟨121, "J11", 65⟩,
  ⟨122, "J12", 65⟩,
  ⟨123, "J13", 65⟩,
  ⟨124, "J14", 65⟩,
  ⟨125, "J15", 65⟩,
  ⟨126, "J16", 65⟩]

def defaultMapList : List PadMapping :=
  defaultMapListBankA ++ defaultMapListBankB ++ defaultMapListBankC ++ defaultMapListBankD ++ defaultMapListBankE ++ defaultMapListBankF ++ defaultMapListBankG ++ defaultMapListBankH ++ defaultMapListBankI ++ defaultMapListBankJ

/-- The static `AudioPattern.defaultMapOG` table (legacy hardware, banks A-J of
12 pads), in source order. -/
def defaultMapOGListBankA : List PadMapping := [
  ⟨47, "A1", 0⟩,
  ⟨48, "A2", 0⟩,
  ⟨49, "A3", 0⟩,
  ⟨50, "A4", 0⟩,
  ⟨51, "A5", 0⟩,
  ⟨52, "A6", 0⟩,
  ⟨53, "A7", 0⟩,
  ⟨54, "A8", 0⟩,
  ⟨55, "A9", 0⟩,
  ⟨56, "A10", 0⟩,
  ⟨57, "A11", 0⟩,
  ⟨58, "A12", 0⟩]

def defaultMapOGListBankB : List PadMapping := [
  ⟨59, "B1", 0⟩,
  ⟨60, "B2", 0⟩,
  ⟨61, "B3", 0⟩,
  ⟨62, "B4", 0⟩,
  ⟨63, "B5", 0⟩,
  ⟨64, "B6", 0⟩,
  ⟨65, "B7", 0⟩,
  ⟨66, "B8", 0⟩,
  ⟨67, "B9", 0⟩,
  ⟨68, "B10", 0⟩,
  ⟨69, "B11", 0⟩,
  ⟨70, "B12", 0⟩]

def defaultMapOGListBankC : List PadMapping := [
  ⟨71, "C1", 0⟩,
  ⟨72, "C2", 0⟩,
  ⟨73, "C3", 0⟩,
  ⟨74, "C4", 0⟩,
  ⟨75, "C5", 0⟩,
  ⟨76, "C6", 0⟩,
  ⟨77, "C7", 0⟩,
  ⟨78, "C8", 0⟩,
  ⟨79, "C9", 0⟩,
  ⟨80, "C10", 0⟩,
  ⟨81, "C11", 0⟩,
  ⟨82, "C12", 0⟩]

def defaultMapOGListBankD : List PadMapping := [
  ⟨83, "D1", 0⟩,
  ⟨84, "D2", 0⟩,
  ⟨85, "D3", 0⟩,
  ⟨86, "D4", 0⟩,
  ⟨87, "D5", 0⟩,
  ⟨88, "D6", 0⟩,
  ⟨89, "D7", 0⟩,
  ⟨90, "D8", 0⟩,
  ⟨91, "D9", 0⟩,
  ⟨92, "D10", 0⟩,
  ⟨93, "D11", 0⟩,
  ⟨94, "D12", 0⟩]

def defaultMapOGListBankE : List PadMapping := [
  ⟨95, "E1", 0⟩,
  ⟨96, "E2", 0⟩,
  ⟨97, "E3", 0⟩,
  ⟨98, "E4", 0⟩,
  ⟨99, "E5", 0⟩,
  ⟨100, "E6", 0⟩,
  ⟨101, "E7", 0⟩,
  ⟨102, "E8", 0⟩,
  ⟨103, "E9", 0⟩,
  ⟨104, "E10", 0⟩,
  ⟨105, "E11", 0⟩,
  ⟨106, "E12", 0⟩]

def defaultMapOGListBankF : List PadMapping := [
  ⟨107, "F1", 0⟩,
  ⟨108, "F2", 0⟩,
  ⟨109, "F3", 0⟩,
  ⟨110, "F4", 0⟩,
  ⟨111, "F5", 0⟩,
  ⟨112, "F6", 0⟩,
  ⟨113, "F7", 0⟩,
  ⟨114, "F8", 0⟩,
  ⟨115, "F9", 0⟩,
  ⟨116, "F10", 0⟩,
  ⟨117, "F11", 0⟩,
  ⟨118, "F12", 0⟩]

def defaultMapOGListBankG : List PadMapping := [
  ⟨71, "G1", 64⟩,
  ⟨72, "G2", 64⟩,
  ⟨73, "G3", 64⟩,
  ⟨74, "G4", 64⟩,
  ⟨75, "G5", 64⟩,
  ⟨76, "G6", 64⟩,
  ⟨77, "G7", 64⟩,
  ⟨78, "G8", 64⟩,
  ⟨79, "G9", 64⟩,
  ⟨80, "G10", 64⟩,
  ⟨81, "G11", 64⟩,
  ⟨82, "G12", 64⟩]

def defaultMapOGListBankH : List PadMapping := [
  ⟨83, "H1", 64⟩,
  ⟨84, "H2", 64⟩,
  ⟨85, "H3", 64⟩,
  ⟨86, "H4", 64⟩,
  ⟨87, "H5", 64⟩,
  ⟨88, "H6", 64⟩,
  ⟨89, "H7", 64⟩,
  ⟨90, "H8", 64⟩,
  ⟨91, "H9", 64⟩,
  ⟨92, "H10", 64⟩,
  ⟨93, "H11", 64⟩,
  ⟨94, "H12", 64⟩]

def defaultMapOGListBankI : List PadMapping := [
  ⟨95, "I1", 64⟩,
  ⟨96, "I2", 64⟩,
  ⟨97, "I3", 64⟩,
  ⟨98, "I4", 64⟩,
  ⟨99, "I5", 64⟩,
  ⟨100, "I6", 64⟩,
  ⟨101, "I7", 64⟩,
  ⟨102, "I8", 64⟩,
  ⟨103, "I9", 64⟩,
  ⟨104, "I10", 64⟩,
  ⟨105, "I11", 64⟩,
  ⟨106, "I12", 64⟩]

def defaultMapOGListBankJ : List PadMapping := [
  ⟨107, "J1", 64⟩,
  ⟨108, "J2", 64⟩,
  ⟨109, "J3", 64⟩,
  ⟨110, "J4", 64⟩,
  ⟨111, "J5", 64⟩,
  ⟨112, "J6", 64⟩,
  ⟨113, "J7", 64⟩,
  ⟨114, "J8", 64⟩,
  ⟨115, "J9", 64⟩,
  ⟨116, "J10", 64⟩,
  ⟨117, "J11", 64⟩,
  ⟨118, "J12", 64⟩]

def defaultMapOGList : List PadMapping :=
  defaultMapOGListBankA ++ defaultMapOGListBankB ++ defaultMapOGListBankC ++ defaultMapOGListBankD ++ defaultMapOGListBankE ++ defaultMapOGListBankF ++ defaultMapOGListBankG ++ defaultMapOGListBankH ++ defaultMapOGListBankI ++ defaultMapOGListBankJ

/-- JS object lookup `defaultMap[pad]` / `defaultMapOG[pad]` (keys are unique). -/
def lookupPad (og : Bool) (pad : String) : Option PadMapping :=
  (if og then defaultMapOGList else defaultMapList).find? fun e => e.pad == pad

/-- JS `ToUint16` coercion, as performed by `String.fromCharCode`. -/
def jsToUint16 (v : Int) : Nat := (v % 65536).toNat

/-- JS `ToUint8` truncation, as performed by a `Uint8Array` backing store. -/
def jsToUint8 (v : Int) : Nat := (v % 256).toNat

/-- The sample number branch of `AudioPattern.parse`: legacy hardware
recognizes `bankSwitch` 0 and 64, current hardware recognizes 0/64 (first pad
range) and 1/65 (second range, offset by `padsPerBank * 5`); anything else
yields the sentinel 160. -/
def sampleNumberOf (og : Bool) (padsPerBank : Nat) (midiNote bankSwitch : Int) : Int :=
  if og then
    if bankSwitch = 0 then midiNote - 46
    else if bankSwitch = 64 then midiNote - 46 + padsPerBank * 5
    else 160
  else
    if bankSwitch = 0 ∨ bankSwitch = 64 then midiNote - 46
    else if bankSwitch = 1 ∨ bankSwitch = 65 then midiNote - 46 + padsPerBank * 5
    else 160

/-- The pad label derivation of `AudioPattern.parse`:
`padNumber = sampleNumber - 1`, `bankNumber = Math.floor(padNumber / padsPerBank)`
(`Int.fdiv`), `bankLetter = String.fromCharCode(65 + bankNumber)` (char code
coerced mod 2^16), `bankPadNumber = padNumber % padsPerBank + 1` (JS `%` is the
truncated remainder, `Int.tmod`), label = letter then number. -/
def padLabelOf (padsPerBank : Nat) (sampleNumber : Int) : String :=
  let padNumber : Int := sampleNumber - 1
  let bankNumber : Int := Int.fdiv padNumber padsPerBank
  let bankLetter : Char := Char.ofNat (jsToUint16 (65 + bankNumber))
  let bankPadNumber : Int := Int.tmod padNumber padsPerBank + 1
  String.mk [bankLetter] ++ toString bankPadNumber

/-- A parsed pattern note record (typedef `Note` in the source): the seven
stored fields plus the derived `sampleNumber` and `padLabel`. -/
structure Note where
  ticks : Nat
  midiNote : Nat
  bankSwitch : Nat
  pitchMode : Nat
  velocity : Nat
  unknown3 : Nat
  length : Nat
  sampleNumber : Int
  padLabel : String
deriving DecidableEq, Repr

/-- One iteration of the note loop of `parse`: eight sequential `DataBuffer`
reads (`readUInt8` six times, then `readUInt16(true)`, little-endian), failing
when the buffer underflows, followed by the sample number and pad label
derivation. -/
def parseRecord (og : Bool) (padsPerBank : Nat) (bytes : List Nat) (off : Nat) :
    Option Note := do
  let ticks ← bytes[off]?
  let midiNote ← bytes[off + 1]?
  let bankSwitch ← bytes[off + 2]?
  let pitchMode ← bytes[off + 3]?
  let velocity ← bytes[off + 4]?
  let unknown3 ← bytes[off + 5]?
  let lo ← bytes[off + 6]?
  let hi ← bytes[off + 7]?
  let length := lo + 256 * hi
  let sampleNumber := sampleNumberOf og padsPerBank midiNote bankSwitch
  pure { ticks, midiNote, bankSwitch, pitchMode, velocity, unknown3, length,
         sampleNumber, padLabel := padLabelOf padsPerBank sampleNumber }

/-- The note loop `while (i < totalNotes)` of `parse`, reading `count`
consecutive 8-byte records starting at `off`. -/
def parseNotes (og : Bool) (padsPerBank : Nat) (bytes : List Nat) :
    Nat → Nat → Option (List Note)
  | _, 0 => some []
  | off, count + 1 => do
    let n ← parseRecord og padsPerBank bytes off
    let rest ← parseNotes og padsPerBank bytes (off + 8) count
    pure (n :: rest)

/-- The loop bound `totalNotes = remainingBytes / bytesPerNote - 2` of `parse`,
computed by JS (non-integer) division. -/
def totalNotesReal (len bytesPerNote : Nat) : ℚ := (len : ℚ) / bytesPerNote - 2

/-- Number of iterations of `while (i < totalNotes)` with an integer counter:
the number of naturals strictly below the rational bound `totalNotesReal`,
i.e. its ceiling clamped at zero, here in integer arithmetic (see
`totalNotesIter_eq_ceil`). -/
def totalNotesIter (len bytesPerNote : Nat) : Nat :=
  (len + bytesPerNote - 1) / bytesPerNote - 2

/-- `AudioPattern.parse`: read `totalNotes` 8-byte records, then the 16-byte
footer (`this.read(16)`), failing on buffer underflow.  Returns the record list
and the footer bytes (the source then stores `bars = footer[8]` and
`timeSignature = footer[12]` on the instance). -/
def parsePattern (og : Bool) (padsPerBank bytesPerNote : Nat) (bytes : List Nat) :
    Option (List Note × List Nat) := do
  let count := totalNotesIter bytes.length bytesPerNote
  let notes ← parseNotes og padsPerBank bytes 0 count
  let footer ← if 8 * count + 16 ≤ bytes.length then
      some ((bytes.drop (8 * count)).take 16) else none
  pure (notes, footer)

/-- Total decoder of the 8-byte record at `off` (out-of-range reads give byte
0); used only by the claim-side layout description `specParseLayout`. -/
def decodeRecordAt (og : Bool) (padsPerBank : Nat) (bytes : List Nat) (off : Nat) : Note :=
  let midiNote := bytes.getD (off + 1) 0
  let bankSwitch := bytes.getD (off + 2) 0
  let sampleNumber := sampleNumberOf og padsPerBank midiNote bankSwitch
  { ticks := bytes.getD off 0
    midiNote, bankSwitch
    pitchMode := bytes.getD (off + 3) 0
    velocity := bytes.getD (off + 4) 0
    unknown3 := bytes.getD (off + 5) 0
    length := bytes.getD (off + 6) 0 + 256 * bytes.getD (off + 7) 0
    sampleNumber, padLabel := padLabelOf padsPerBank sampleNumber }

/-- Claim-side restatement of the parse layout (claim C9), written from the
spec's words: record count `floor(totalBytes / 8) - 2`, each record decoded in
order from its 8 bytes, followed by one fixed 16-byte footer. -/
def specParseLayout (og : Bool) (padsPerBank : Nat) (bytes : List Nat) :
    Option (List Note × List Nat) :=
  let count := bytes.length / 8 - 2
  some ((List.range count).map fun i => decodeRecordAt og padsPerBank bytes (8 * i),
        (bytes.drop (8 * count)).take 16)

/-- The payload (`data`) of a MIDI track event, as far as the converter
inspects it: note events carry `{ note, velocity, length }` (the source stores
`note` as a string); every other payload shape fails the
`typeof event.data === 'object' && 'velocity' in event.data` test of
`fromMidi`. -/
inductive EventData where
  | noteData (note : String) (velocity : Nat) (length : Nat)
  | otherData
deriving DecidableEq, Repr

/-- A MIDI track event as consumed or produced by the converter. -/
structure MidiTrackEvent where
  deltaTime : Int
  type : Nat
  data : EventData
deriving DecidableEq, Repr

/-- A MIDI track chunk (only its event list matters to the converter). -/
structure MidiTrack where
  events : List MidiTrackEvent
deriving DecidableEq, Repr

/-- The `AudioMIDI` instance shape `fromMidi` requires: `timeDivision` (the
MIDI PPQN) and `chunks`; a chunk that is null or has no `events` member is
skipped by `fromMidi`, hence the `Option`. -/
structure AudioMIDI where
  timeDivision : Nat
  chunks : List (Option MidiTrack)
deriving DecidableEq, Repr

/-- An event of `toMidi`'s working list: a track event extended with the
`absoluteTime` used for sorting and for the delta conversion. -/
structure TimedEvent where
  absoluteTime : Int
  deltaTime : Int
  type : Nat
  note : String
  velocity : Nat
  length : Nat
deriving DecidableEq, Repr

/-- The event generation loop of `toMidi`: accumulate
`absoluteTime += note.ticks`; skip a note whose pad label is absent from
`noteMap` or mapped to the falsy 0; otherwise emit a Note On (type 0x90) at
the accumulated time and, exactly when `length > 0`, a Note Off (type 0x80) at
`absoluteTime + length`. -/
def toMidiGen (noteMap : String → Option Nat) : List Note → Int → List TimedEvent
  | [], _ => []
  | n :: rest, absoluteTime =>
    let t := absoluteTime + n.ticks
    match noteMap n.padLabel with
    | none => toMidiGen noteMap rest t
    | some m =>
      if m = 0 then toMidiGen noteMap rest t
      else
        { absoluteTime := t, deltaTime := 0, type := 0x90, note := toString m,
          velocity := n.velocity, length := n.length } ::
        ((if 0 < n.length then
            [{ absoluteTime := t + n.length, deltaTime := 0, type := 0x80,
               note := toString m, velocity := 0, length := n.length }]
          else []) ++ toMidiGen noteMap rest t)

/-- The order imposed by the comparator
`allEvents.sort((a, b) => a.absoluteTime - b.absoluteTime)` of `toMidi`. -/
def timeLE (a b : TimedEvent) : Prop := a.absoluteTime ≤ b.absoluteTime

instance : DecidableRel timeLE :=
  fun a b => inferInstanceAs (Decidable (a.absoluteTime ≤ b.absoluteTime))

instance : IsTotal TimedEvent timeLE :=
  ⟨fun a b => le_total a.absoluteTime b.absoluteTime⟩

instance : IsTrans TimedEvent timeLE :=
  ⟨fun _ _ _ h1 h2 => le_trans h1 h2⟩

/-- The delta time conversion of `toMidi`: `delta[i] = abs[i] - abs[i-1]`, with
the running `lastAbs` starting at 0. -/
def assignDeltas : List TimedEvent → Int → List TimedEvent
  | [], _ => []
  | e :: rest, lastAbs =>
    { e with deltaTime := e.absoluteTime - lastAbs } :: assignDeltas rest e.absoluteTime

/-- The sorted, delta-converted note event list `allEvents` of `toMidi`. -/
def toMidiEvents (noteMap : String → Option Nat) (notes : List Note) : List TimedEvent :=
  assignDeltas (List.insertionSort timeLE (toMidiGen noteMap notes 0)) 0

/-- Forgetting the `absoluteTime` of a working event gives the stored track
event. -/
def toTrackEvent (e : TimedEvent) : MidiTrackEvent :=
  { deltaTime := e.deltaTime, type := e.type,
    data := .noteData e.note e.velocity e.length }

/-- Modelled from the spec: `AudioMIDI.generateTempoEvent` (package
`@uttori/audio-midi`, whose sources are not in this repository) produces a
tempo meta event at time 0, i.e. delta time 0 with a non-note payload. -/
def tempoEvent : MidiTrackEvent := { deltaTime := 0, type := 0xFF, data := .otherData }

/-- Modelled from the spec: `AudioMIDI.generateMetaStringEvent` (external
package) produces a track-name meta event at time 0 with a non-note payload. -/
def trackNameEvent : MidiTrackEvent := { deltaTime := 0, type := 0xFF, data := .otherData }

/-- Modelled from the spec: `AudioMIDI.generateEndOfTrackEvent` (external
package) produces the End of Track meta event with a non-note payload. -/
def endOfTrackEvent : MidiTrackEvent := { deltaTime := 0, type := 0xFF, data := .otherData }

/-- `AudioPattern.toMidi`: a single track holding an optional tempo event, a
track name event, the sorted and delta-converted note events, and End of
Track; `timeDivision` is the caller's `ppq`. -/
def toMidiFull (bpm : Option Nat) (ppq : Nat) (noteMap : String → Option Nat)
    (notes : List Note) : AudioMIDI :=
  { timeDivision := ppq
    chunks := [some { events :=
      (match bpm with | some _ => [tempoEvent] | none => []) ++
      [trackNameEvent] ++
      (toMidiEvents noteMap notes).map toTrackEvent ++
      [endOfTrackEvent] }] }

/-- JS `Math.round`: round half toward positive infinity. -/
def jsRound (q : ℚ) : Int := ⌊q + 1 / 2⌋

/-- `Math.round(a / b)` for integer `a` and a positive integer denominator
`b`, in exact integer arithmetic: `⌊a / b + 1 / 2⌋ = ⌊(2 a + b) / (2 b)⌋`, and
`/` on `Int` is floor division for a positive divisor.  Evaluating the
converter's `Math.round(x * conversionRatio)` with
`conversionRatio = patternPPQN / midiPPQN` in exact arithmetic is
`jsRoundDiv (x * patternPPQN) midiPPQN`; see `jsRoundDiv_eq_jsRound` and
`jsRoundDiv_mul_eq_jsRound`. -/
def jsRoundDiv (a b : Int) : Int := (2 * a + b) / (2 * b)

/-- One 8-byte record as written by `fromMidi` (one `writeUInt8` per
single-byte field and a final little-endian `writeUInt16`).  Fields hold the
exact values passed to the write calls, so a value outside 0-255 in a
single-byte field denotes an out-of-range write (the `Uint8Array` backing
store would truncate it mod 256, `jsToUint8`). -/
structure PatternRecord where
  ticks : Int
  midiNote : Int
  bankSwitch : Int
  pitchMode : Int
  velocity : Int
  unknown3 : Int
  length : Int
deriving DecidableEq, Repr

/-- One rest record written by the helper `insertEmptyNotes` of `fromMidi`:
`min gap 255` ticks, `midiNote` 128, `bankSwitch` 0, velocity 0, length 0. -/
def restRecord (gap : Int) : PatternRecord :=
  { ticks := min gap 255, midiNote := 128, bankSwitch := 0, pitchMode := 0,
    velocity := 0, unknown3 := 0, length := 0 }

/-- Fuel-indexed body of `insertEmptyNotes` (the fuel only makes the
recursion structural; `insertEmptyNotes_unfold` recovers the source loop). -/
def insertEmptyNotesGo : Nat → Int → List PatternRecord
  | 0, _ => []
  | fuel + 1, gap =>
    if 0 < gap then restRecord gap :: insertEmptyNotesGo fuel (gap - min gap 255)
    else []

/-- The helper `insertEmptyNotes` of `fromMidi`: while the gap is positive,
write a rest record carrying `min gap 255` ticks (at most 255 at a time), and
decrease the gap by the inserted amount. -/
def insertEmptyNotes (gap : Int) : List PatternRecord :=
  insertEmptyNotesGo gap.toNat gap

/-- A Note On entry of `fromMidi`'s flattened `allEvents` list. -/
structure NoteOnEvent where
  absoluteTime : Int
  note : String
  velocity : Nat
  length : Nat
deriving DecidableEq, Repr

/-- The per-track scan of `fromMidi`: accumulate `absoluteTime += deltaTime`
over every event, keeping those with a note payload, `type === 0x90` and
`velocity > 0`. -/
def trackNoteOns : List MidiTrackEvent → Int → List NoteOnEvent
  | [], _ => []
  | e :: rest, acc =>
    let t := acc + e.deltaTime
    match e.data with
    | .noteData note vel len =>
      if e.type = 0x90 ∧ 0 < vel then
        { absoluteTime := t, note := note, velocity := vel, length := len } ::
          trackNoteOns rest t
      else trackNoteOns rest t
    | .otherData => trackNoteOns rest t

/-- The flattening loop of `fromMidi`: null chunks (and chunks without an
`events` member) are skipped; each remaining track is scanned from absolute
time 0. -/
def allNoteOns (midi : AudioMIDI) : List NoteOnEvent :=
  (midi.chunks.filterMap id).flatMap fun t => trackNoteOns t.events 0

/-- The order imposed by the comparator
`allEvents.sort((a, b) => a.absoluteTime - b.absoluteTime)` of `fromMidi`. -/
def noteOnLE (a b : NoteOnEvent) : Prop := a.absoluteTime ≤ b.absoluteTime

instance : DecidableRel noteOnLE :=
  fun a b => inferInstanceAs (Decidable (a.absoluteTime ≤ b.absoluteTime))

instance : IsTotal NoteOnEvent noteOnLE :=
  ⟨fun a b => le_total a.absoluteTime b.absoluteTime⟩

instance : IsTrans NoteOnEvent noteOnLE :=
  ⟨fun _ _ _ h1 h2 => le_trans h1 h2⟩

/-- The conversion loop of `fromMidi` over the time-sorted Note On list,
threading `currentTime`, `totalTrackLength` and `lastAbsoluteTime`.  For each
event: `ticks = Math.round((absoluteTime - lastAbsoluteTime) * conversionRatio)`;
when `ticks - currentTime > 255` the helper first writes rest records for that
whole gap; then the pad for the note value is resolved through `noteMap` and
the revision table — the source destructures the table entry, so a failed
lookup throws a `TypeError`, modelled as `Except.error` — and the 8-byte
record is written with the raw `ticks` value, pitch mode 0, the event
velocity, 64 in the unknown byte, and the ratio-scaled length.  The scaling
`Math.round(x * conversionRatio)` is evaluated in exact arithmetic as
`jsRoundDiv (x * patternPPQN) midiPPQN` (`jsRoundDiv_mul_eq_jsRound`). -/
def fromMidiLoop (og : Bool) (noteMap : String → Option String) (patternPPQN midiPPQN : Nat) :
    List NoteOnEvent → Int → Int → Int → Except String (List PatternRecord × Int × Int)
  | [], currentTime, totalTrackLength, _ => .ok ([], currentTime, totalTrackLength)
  | e :: rest, currentTime, totalTrackLength, lastAbsoluteTime =>
    let ticks := jsRoundDiv ((e.absoluteTime - lastAbsoluteTime) * patternPPQN) midiPPQN
    let gap := ticks - currentTime
    let rests := if 255 < gap then insertEmptyNotes gap else []
    match noteMap e.note with
    | none => .error "TypeError: Cannot destructure property bankSwitch of undefined"
    | some pad =>
      match lookupPad og pad with
      | none => .error "TypeError: Cannot destructure property bankSwitch of undefined"
      | some entry =>
        let correctedLength := jsRoundDiv ((e.length : Int) * patternPPQN) midiPPQN
        let record : PatternRecord :=
          { ticks := ticks, midiNote := entry.midiNote, bankSwitch := entry.bankSwitch,
            pitchMode := 0, velocity := e.velocity, unknown3 := 64,
            length := correctedLength }
        match fromMidiLoop og noteMap patternPPQN midiPPQN rest (currentTime + ticks)
            (totalTrackLength + correctedLength) e.absoluteTime with
        | .ok (recs, ct, ttl) => .ok (rests ++ record :: recs, ct, ttl)
        | .error msg => .error msg

/-- The bar rounding tail of `fromMidi`: with `ticksPerBar = patternPPQN * 4`,
when every event was at time 0 but some corrected length was positive, insert
one bar of rests (without advancing `currentTime`); otherwise, when
`currentTime` is not a bar multiple (JS `%` is the truncated remainder), round
it up to the next bar with rests unless that would pass `64 * ticksPerBar`, in
which case nothing is inserted and `currentTime` is set to the cap. -/
def barRounding (ticksPerBar currentTime totalTrackLength : Int) :
    List PatternRecord × Int :=
  if currentTime = 0 ∧ 0 < totalTrackLength then
    (insertEmptyNotes ticksPerBar, currentTime)
  else if Int.tmod currentTime ticksPerBar ≠ 0 then
    if currentTime + (ticksPerBar - Int.tmod currentTime ticksPerBar) ≤ 64 * ticksPerBar then
      (insertEmptyNotes (ticksPerBar - Int.tmod currentTime ticksPerBar),
       currentTime + (ticksPerBar - Int.tmod currentTime ticksPerBar))
    else ([], 64 * ticksPerBar)
  else ([], currentTime)

/-- The 16-byte footer written by `fromMidi` (`Uint8Array(16)`, stores truncate
mod 256): byte 1 is 140; bytes 8 and 14 hold the bar count for current
hardware and 0 for legacy; byte 9 is 2 for legacy else 0; byte 13 is 128 for
current hardware; byte 15 is 1 for current hardware; the time signature line
is commented out in the source, so byte 12 stays 0. -/
def fromMidiFooter (og : Bool) (bars : Int) : List Nat :=
  [0, 140, 0, 0, 0, 0, 0, 0,
   if og then 0 else jsToUint8 bars,
   if og then 2 else 0,
   0, 0, 0,
   if og then 0 else 128,
   if og then 0 else jsToUint8 bars,
   if og then 0 else 1]

/-- The body of `fromMidi` after the argument checks: compute
`conversionRatio = patternPPQN / midiPPQN`, flatten and sort the Note On
events, run the conversion loop, apply the bar rounding, and compute
`bars = Math.round(currentTime / ticksPerBar)` (exactly: `jsRoundDiv`) for the
footer.  Returns the written records and the 16 footer bytes. -/
def fromMidiBody (midi : AudioMIDI) (noteMap : String → Option String)
    (patternPPQN : Nat) (og : Bool) : Except String (List PatternRecord × List Nat) :=
  let ticksPerBar : Int := patternPPQN * 4
  let evts := List.insertionSort noteOnLE (allNoteOns midi)
  match fromMidiLoop og noteMap patternPPQN midi.timeDivision evts 0 0 0 with
  | .error msg => .error msg
  | .ok (recs, currentTime, totalTrackLength) =>
    let rounded := barRounding ticksPerBar currentTime totalTrackLength
    let bars := jsRoundDiv rounded.2 ticksPerBar
    .ok (recs ++ rounded.1, fromMidiFooter og bars)

/-- `AudioPattern.fromMidi` including its argument checks: a missing (or
shape-malformed) `audioMIDI`, a missing `noteMap`, or a falsy (zero)
`patternPPQN` raise an error before anything is written. -/
def fromMidi (audioMIDI : Option AudioMIDI) (noteMap : Option (String → Option String))
    (patternPPQN : Nat) (og : Bool) : Except String (List PatternRecord × List Nat) :=
  match audioMIDI with
  | none => .error "No audioMIDI provided, please provide an AudioMIDI instance."
  | some midi =>
    match noteMap with
    | none => .error "No noteMap provided, please provide a mapping of MIDI notes to pads."
    | some nm =>
      if patternPPQN = 0 then
        .error "No patternPPQN provided, please provide a PPQN for the pattern: OG is 96, MKii is 480."
      else fromMidiBody midi nm patternPPQN og

/-- Sum of the tick gaps of a note list (total accumulated pattern time). -/
def sumTicks (notes : List Note) : Int := (notes.map fun n => (n.ticks : Int)).sum

/-- Sum of the delta times of a track event list. -/
def sumDeltas (events : List MidiTrackEvent) : Int := (events.map fun e => e.deltaTime).sum

/-- Claim-side description of the Note On stream of `toMidi`: one Note On per
mapped note, at the running absolute time; a pad absent from the map or mapped
to the falsy 0 contributes no event, but its ticks still advance the time. -/
def mappedNoteOns (noteMap : String → Option Nat) : List Note → Int → List TimedEvent
  | [], _ => []
  | n :: rest, t =>
    match noteMap n.padLabel with
    | none => mappedNoteOns noteMap rest (t + n.ticks)
    | some m =>
      if m = 0 then mappedNoteOns noteMap rest (t + n.ticks)
      else { absoluteTime := t + n.ticks, deltaTime := 0, type := 0x90,
             note := toString m, velocity := n.velocity, length := n.length } ::
           mappedNoteOns noteMap rest (t + n.ticks)

/-- Claim-side description of the Note Off stream of `toMidi`: one Note Off at
`absoluteTime + length`, exactly for the mapped notes with `length > 0`. -/
def mappedNoteOffs (noteMap : String → Option Nat) : List Note → Int → List TimedEvent
  | [], _ => []
  | n :: rest, t =>
    match noteMap n.padLabel with
    | none => mappedNoteOffs noteMap rest (t + n.ticks)
    | some m =>
      if m = 0 then mappedNoteOffs noteMap rest (t + n.ticks)
      else if 0 < n.length then
        { absoluteTime := t + n.ticks + n.length, deltaTime := 0, type := 0x80,
          note := toString m, velocity := 0, length := n.length } ::
        mappedNoteOffs noteMap rest (t + n.ticks)
      else mappedNoteOffs noteMap rest (t + n.ticks)

/-- Forgetting a working event into the Note On entry `fromMidi` extracts. -/
def toNoteOnEvt (e : TimedEvent) : NoteOnEvent :=
  { absoluteTime := e.absoluteTime, note := e.note, velocity := e.velocity,
    length := e.length }

/-- The Bool form of `fromMidi`'s extraction test on a working event: a note
payload of type 0x90 with positive velocity. -/
def keepEvt (e : TimedEvent) : Bool := decide (e.type = 0x90 ∧ 0 < e.velocity)

/-- Running prefix sums of the delta times of an event list (baseline `t`). -/
def deltaPrefixSums : List TimedEvent → Int → List Int
  | [], _ => []
  | e :: rest, t => (t + e.deltaTime) :: deltaPrefixSums rest (t + e.deltaTime)

/-- The tuple compared by the round-trip claim, for an output record: the pad
label the parser derives from its midiNote/bankSwitch bytes (current
hardware), with its ticks, velocity and length values. -/
def recordTuple (r : PatternRecord) : String × Int × Int × Int :=
  (padLabelOf 16 (sampleNumberOf false 16 r.midiNote r.bankSwitch),
   r.ticks, r.velocity, r.length)

/-- The tuple compared by the round-trip claim, for an input pattern note. -/
def noteTuple (n : Note) : String × Int × Int × Int :=
  (n.padLabel, (n.ticks : Int), (n.velocity : Int), (n.length : Int))

/-! ## Concrete inputs used by counterexamples, failing-input evaluations and
witnesses -/

/-- A MIDI file at PPQN 480 with two Note On events 600 ticks apart. -/
def gapMidi600 : AudioMIDI :=
  { timeDivision := 480, chunks := [some { events := [
      { deltaTime := 0, type := 0x90, data := .noteData "60" 100 0 },
      { deltaTime := 600, type := 0x90, data := .noteData "60" 100 0 }] }] }

/-- A `fromMidi` note map sending MIDI note value "60" to pad A1. -/
def noteMapB60 : String → Option String := fun s => if s = "60" then some "A1" else none

/-- A MIDI file at PPQN 480 with a single Note On at absolute time
124800 = 65 * 1920, exactly 65 bars. -/
def capMidi65 : AudioMIDI :=
  { timeDivision := 480, chunks := [some { events := [
      { deltaTime := 124800, type := 0x90, data := .noteData "60" 100 0 }] }] }

/-- A MIDI file at PPQN 480 whose only Note On carries note value "99", which
`noteMapB60` does not map. -/
def unmappedMidi : AudioMIDI :=
  { timeDivision := 480, chunks := [some { events := [
      { deltaTime := 0, type := 0x90, data := .noteData "99" 100 0 }] }] }

/-- A single pattern note on pad A1 with velocity 0 (ticks 0, length 0). -/
def zeroVelNote : Note :=
  { ticks := 0, midiNote := 47, bankSwitch := 64, pitchMode := 0, velocity := 0,
    unknown3 := 64, length := 0, sampleNumber := 1, padLabel := "A1" }

/-- A `toMidi` note map sending pad A1 to MIDI note 60 and pad B1 to 61. -/
def noteMapF2 : String → Option Nat :=
  fun s => if s = "A1" then some 60 else if s = "B1" then some 61 else none

/-- A `fromMidi` note map sending MIDI note value "60" back to pad A1 and
"61" back to pad B1. -/
def noteMapB2 : String → Option String :=
  fun s => if s = "60" then some "A1" else if s = "61" then some "B1" else none

/-- A pattern note on pad A1: 10 ticks gap, velocity 100, length 30. -/
def sampleNoteA1 : Note :=
  { ticks := 10, midiNote := 47, bankSwitch := 64, pitchMode := 0, velocity := 100,
    unknown3 := 64, length := 30, sampleNumber := 1, padLabel := "A1" }

/-- A pattern note on a pad label outside every map. -/
def unmappedNote : Note :=
  { ticks := 5, midiNote := 0, bankSwitch := 0, pitchMode := 0, velocity := 50,
    unknown3 := 64, length := 0, sampleNumber := 160, padLabel := "Z9" }

/-- A pattern note on pad B1: 200 ticks gap, velocity 90, length 0. -/
def sampleNoteB1 : Note :=
  { ticks := 200, midiNote := 63, bankSwitch := 64, pitchMode := 0, velocity := 90,
    unknown3 := 0, length := 0, sampleNumber := 17, padLabel := "B1" }

/-! ## Arithmetic bridging lemmas

These connect the integer-arithmetic forms used in the executable embedding to
the literal `Math.round` / JS-division formulas of the source. -/

theorem jsRoundDiv_eq_jsRound (a : Int) (b : Nat) (hb : b ≠ 0) :
    jsRoundDiv a b = jsRound ((a : ℚ) / (b : ℚ)) := by
  have hb0 : ((b : ℚ)) ≠ 0 := Nat.cast_ne_zero.mpr hb
  have h : (a : ℚ) / (b : ℚ) + 1 / 2 = ((2 * a + b : Int) : ℚ) / ((2 * b : ℕ) : ℚ) := by
    push_cast
    field_simp
    ring
  rw [jsRound, jsRoundDiv, h, Rat.floor_intCast_div_natCast]
  push_cast
  rfl

theorem jsRoundDiv_mul_eq_jsRound (v : Int) (p q : Nat) (hq : q ≠ 0) :
    jsRoundDiv (v * p) q = jsRound ((v : ℚ) * ((p : ℚ) / (q : ℚ))) := by
  rw [jsRoundDiv_eq_jsRound _ _ hq]
  congr 1
  push_cast
  ring

theorem totalNotesIter_eq_ceil (len b : Nat) (hb : b ≠ 0) :
    (totalNotesIter len b : Int) = max 0 ⌈totalNotesReal len b⌉ := by
  have hbq : (0 : ℚ) < (b : ℚ) := by exact_mod_cast Nat.pos_of_ne_zero hb
  have hb1 : 1 ≤ b := Nat.one_le_iff_ne_zero.mpr hb
  set c := (len + b - 1) / b with hc
  have h1 : c * b ≤ len + b - 1 := Nat.div_mul_le_self _ _
  have h2 : len + b - 1 < (c + 1) * b :=
    (Nat.div_lt_iff_lt_mul (Nat.pos_of_ne_zero hb)).mp (Nat.lt_succ_self _)
  have hcb1 : c * b < len + b := lt_of_le_of_lt h1 (by omega)
  have hcb2 : len ≤ c * b := by
    rw [Nat.succ_mul] at h2
    omega
  have hceil : ⌈((len : ℚ) / (b : ℚ))⌉ = (c : ℤ) := by
    rw [Int.ceil_eq_iff]
    constructor
    · rw [lt_div_iff₀ hbq]
      push_cast
      have h3 : (c : ℚ) * b < (len : ℚ) + b := by exact_mod_cast hcb1
      nlinarith [h3]
    · rw [div_le_iff₀ hbq]
      push_cast
      exact_mod_cast hcb2
  have hml : ⌈totalNotesReal len b⌉ = (c : ℤ) - 2 := by
    rw [totalNotesReal]
    have h4 : ((2 : ℚ)) = ((2 : ℤ) : ℚ) := by norm_num
    rw [h4, Int.ceil_sub_int, hceil]
  rw [hml, totalNotesIter, ← hc]
  omega

theorem insertEmptyNotesGo_congr (f₁ : Nat) :
    ∀ (f₂ : Nat) (gap : Int), gap.toNat ≤ f₁ → gap.toNat ≤ f₂ →
      insertEmptyNotesGo f₁ gap = insertEmptyNotesGo f₂ gap := by
  induction f₁ with
  | zero =>
    intro f₂ gap h1 _
    have hg : ¬ 0 < gap := by omega
    cases f₂ with
    | zero => rfl
    | succ m => simp [insertEmptyNotesGo, hg]
  | succ k ih =>
    intro f₂ gap h1 h2
    by_cases hg : 0 < gap
    · have hm1 : (1 : Int) ≤ min gap 255 := le_min (by omega) (by norm_num)
      have hm2 : min gap 255 ≤ gap := min_le_left _ _
      cases f₂ with
      | zero => omega
      | succ m =>
        simp only [insertEmptyNotesGo, if_pos hg]
        congr 1
        exact ih m (gap - min gap 255) (by omega) (by omega)
    · cases f₂ with
      | zero => simp [insertEmptyNotesGo, hg]
      | succ m => simp [insertEmptyNotesGo, hg]

theorem insertEmptyNotes_unfold (gap : Int) :
    insertEmptyNotes gap =
      if 0 < gap then restRecord gap :: insertEmptyNotes (gap - min gap 255)
      else [] := by
  by_cases hg : 0 < gap
  · have hm1 : (1 : Int) ≤ min gap 255 := le_min (by omega) (by norm_num)
    have hm2 : min gap 255 ≤ gap := min_le_left _ _
    have ht : gap.toNat = (gap.toNat - 1) + 1 := by omega
    rw [insertEmptyNotes, ht]
    simp only [insertEmptyNotesGo, if_pos hg]
    congr 1
    exact insertEmptyNotesGo_congr (gap.toNat - 1) ((gap - min gap 255).toNat)
      (gap - min gap 255) (by omega) (by omega)
  · have ht : gap.toNat = 0 := by omega
    rw [insertEmptyNotes, ht]
    simp [insertEmptyNotesGo, hg]

/-! ## Parse layout lemmas -/

theorem parseRecord_eq (og : Bool) (pads : Nat) (bytes : List Nat) (off : Nat)
    (h : off + 8 ≤ bytes.length) :
    parseRecord og pads bytes off = some (decodeRecordAt og pads bytes off) := by
  have hr : ∀ j, j < 8 → bytes[off + j]? = some (bytes.getD (off + j) 0) := fun j hj => by
    rw [List.getElem?_eq_getElem (by omega), List.getD_eq_getElem bytes 0 (by omega)]
  have h0 : bytes[off]? = some (bytes.getD off 0) := by
    have h' := hr 0 (by omega)
    simpa using h'
  simp only [parseRecord, decodeRecordAt, h0, hr 1 (by omega), hr 2 (by omega),
    hr 3 (by omega), hr 4 (by omega), hr 5 (by omega), hr 6 (by omega), hr 7 (by omega),
    Option.bind_eq_bind, Option.some_bind, Option.pure_def]

theorem parseNotes_eq (og : Bool) (pads : Nat) (bytes : List Nat) :
    ∀ (count off : Nat), off + 8 * count ≤ bytes.length →
      parseNotes og pads bytes off count =
        some ((List.range count).map fun i => decodeRecordAt og pads bytes (off + 8 * i)) := by
  intro count
  induction count with
  | zero => intro off h; simp [parseNotes]
  | succ k ih =>
    intro off h
    rw [parseNotes, parseRecord_eq og pads bytes off (by omega), ih (off + 8) (by omega)]
    simp only [Option.bind_eq_bind, Option.some_bind, List.range_succ_eq_map, List.map_cons,
      List.map_map, Nat.mul_zero, Nat.add_zero, Option.pure_def, Option.some.injEq,
      List.cons.injEq, true_and]
    apply List.map_congr_left
    intro i _
    simp only [Function.comp_apply]
    congr 1
    omega

/-! ## Error message characterization of the conversion loop -/

theorem fromMidiLoop_error_msg (og : Bool) (nm : String → Option String) (p q : Nat) :
    ∀ (evts : List NoteOnEvent) (ct ttl la : Int) (msg : String),
      fromMidiLoop og nm p q evts ct ttl la = .error msg →
      msg = "TypeError: Cannot destructure property bankSwitch of undefined" := by
  intro evts
  induction evts with
  | nil => intro ct ttl la msg h; simp [fromMidiLoop] at h
  | cons e rest ih =>
    intro ct ttl la msg h
    rw [fromMidiLoop] at h
    cases hnm : nm e.note with
    | none =>
      simp only [hnm, Except.error.injEq] at h
      exact h.symm
    | some pad =>
      simp only [hnm] at h
      cases hlp : lookupPad og pad with
      | none =>
        simp only [hlp, Except.error.injEq] at h
        exact h.symm
      | some entry =>
        simp only [hlp] at h
        cases hrec : fromMidiLoop og nm p q rest
            (ct + jsRoundDiv ((e.absoluteTime - la) * p) q)
            (ttl + jsRoundDiv ((e.length : Int) * p) q) e.absoluteTime with
        | ok x =>
          simp only [hrec] at h
          exact Except.noConfusion h
        | error msg2 =>
          simp only [hrec, Except.error.injEq] at h
          exact h ▸ ih _ _ _ _ hrec

theorem fromMidiBody_error_msg (m : AudioMIDI) (nm : String → Option String)
    (p : Nat) (og : Bool) (msg : String)
    (h : fromMidiBody m nm p og = .error msg) :
    msg = "TypeError: Cannot destructure property bankSwitch of undefined" := by
  rw [fromMidiBody] at h
  cases hL : fromMidiLoop og nm p m.timeDivision
      (List.insertionSort noteOnLE (allNoteOns m)) 0 0 0 with
  | ok x =>
    simp only [hL] at h
    exact Except.noConfusion h
  | error msg2 =>
    simp only [hL, Except.error.injEq] at h
    exact h ▸ fromMidiLoop_error_msg og nm p m.timeDivision _ _ _ _ _ hL

/-! ## Table helper lemmas -/

set_option maxRecDepth 4000 in
theorem defaultMap_pad_roundtrip :
    ∀ e ∈ defaultMapList,
      padLabelOf 16 (sampleNumberOf false 16 e.midiNote e.bankSwitch) = e.pad := by
  decide

set_option maxRecDepth 4000 in
theorem defaultMap_midiNote_ne_128 : ∀ e ∈ defaultMapList, e.midiNote ≠ 128 := by
  decide

/-! ## Claim theorems -/

/-- C8: parsing a note record with `midiNote = 63` and `bankSwitch = 64` under
current-hardware options (og = false, padsPerBank = 16) derives
`sampleNumber = 17` and `padLabel = "B1"`. -/
theorem C8_record_63_64_is_B1 :
    (parseRecord false 16 [0, 63, 64, 0, 100, 64, 0, 0] 0).map
      (fun n => (n.sampleNumber, n.padLabel)) = some (17, "B1") := by
  decide

/-- C10: the parse-time pad label derivation is a left inverse of the static
current-hardware pad table: for every entry of `defaultMap` (pads A1 through
J16), parsing a note record whose `midiNote` and `bankSwitch` bytes are that
entry's values, with og = false and padsPerBank = 16, derives the entry's own
pad label. -/
theorem C10_defaultMap_left_inverse :
    (defaultMapList.all fun e =>
      (parseRecord false 16 [0, e.midiNote, e.bankSwitch, 0, 0, 0, 0, 0] 0).map
        (fun n => n.padLabel) == some e.pad) = true := by
  decide

theorem sampleNumberOf_sentinel_og (pads : Nat) (mn bs : Int)
    (h0 : bs ≠ 0) (h64 : bs ≠ 64) : sampleNumberOf true pads mn bs = 160 := by
  simp [sampleNumberOf, h0, h64]

theorem sampleNumberOf_sentinel_mk (pads : Nat) (mn bs : Int)
    (h0 : bs ≠ 0) (h64 : bs ≠ 64) (h1 : bs ≠ 1) (h65 : bs ≠ 65) :
    sampleNumberOf false pads mn bs = 160 := by
  simp [sampleNumberOf, h0, h64, h1, h65]

/-- C7: a note record whose `bankSwitch` byte is outside the recognized set
({0, 64} for legacy hardware; {0, 64, 1, 65} for current hardware) is assigned
the sentinel out-of-range sample number 160, and such a record still parses
(the record read never fails when its 8 bytes are available, whatever the
`bankSwitch` byte holds). -/
theorem C7_unrecognized_bankSwitch_sentinel :
    (∀ (padsPerBank : Nat) (midiNote bankSwitch : Int),
      bankSwitch ≠ 0 → bankSwitch ≠ 64 →
      sampleNumberOf true padsPerBank midiNote bankSwitch = 160) ∧
    (∀ (padsPerBank : Nat) (midiNote bankSwitch : Int),
      bankSwitch ≠ 0 → bankSwitch ≠ 64 → bankSwitch ≠ 1 → bankSwitch ≠ 65 →
      sampleNumberOf false padsPerBank midiNote bankSwitch = 160) ∧
    (∀ (og : Bool) (padsPerBank : Nat) (bytes : List Nat) (off : Nat),
      off + 8 ≤ bytes.length → (parseRecord og padsPerBank bytes off).isSome = true) := by
  refine ⟨fun pads mn bs h0 h64 => sampleNumberOf_sentinel_og pads mn bs h0 h64,
    fun pads mn bs h0 h64 h1 h65 => sampleNumberOf_sentinel_mk pads mn bs h0 h64 h1 h65,
    fun og pads bytes off h => ?_⟩
  rw [parseRecord_eq og pads bytes off h]
  rfl

/-- Witness for C7 at `bankSwitch = 7`: the sentinel on both hardware
revisions, and the record with that byte still parses. -/
theorem C7_unrecognized_bankSwitch_sentinel_witness :
    sampleNumberOf true 12 60 7 = 160 ∧ sampleNumberOf false 16 60 7 = 160 ∧
    (parseRecord false 16 [0, 60, 7, 0, 0, 0, 0, 0] 0).isSome = true :=
  ⟨C7_unrecognized_bankSwitch_sentinel.1 12 60 7 (by decide) (by decide),
   C7_unrecognized_bankSwitch_sentinel.2.1 16 60 7 (by decide) (by decide) (by decide)
     (by decide),
   C7_unrecognized_bankSwitch_sentinel.2.2 false 16 [0, 60, 7, 0, 0, 0, 0, 0] 0 (by decide)⟩

/-- C6: `fromMidi` raises a hard error naming the missing argument when the
`AudioMIDI` instance, the note map, or a truthy `patternPPQN` is missing (in
the `Except` model an error result carries no written bytes, so nothing is
written); with all three required arguments supplied (`patternPPQN ≠ 0`) the
result is never one of these precondition errors. -/
theorem C6_fromMidi_preconditions :
    (∀ nm p og, fromMidi none nm p og =
      .error "No audioMIDI provided, please provide an AudioMIDI instance.") ∧
    (∀ m p og, fromMidi (some m) none p og =
      .error "No noteMap provided, please provide a mapping of MIDI notes to pads.") ∧
    (∀ m nm og, fromMidi (some m) (some nm) 0 og =
      .error "No patternPPQN provided, please provide a PPQN for the pattern: OG is 96, MKii is 480.") ∧
    (∀ (m : AudioMIDI) (nm : String → Option String) (p : Nat) (og : Bool), p ≠ 0 →
      (fromMidi (some m) (some nm) p og ≠
        .error "No audioMIDI provided, please provide an AudioMIDI instance.") ∧
      (fromMidi (some m) (some nm) p og ≠
        .error "No noteMap provided, please provide a mapping of MIDI notes to pads.") ∧
      (fromMidi (some m) (some nm) p og ≠
        .error "No patternPPQN provided, please provide a PPQN for the pattern: OG is 96, MKii is 480.")) := by
  refine ⟨fun nm p og => rfl, fun m p og => rfl, fun m nm og => rfl, ?_⟩
  intro m nm p og hp
  have hbody : fromMidi (some m) (some nm) p og = fromMidiBody m nm p og := by
    simp [fromMidi, hp]
  refine ⟨?_, ?_, ?_⟩ <;> intro heq <;> rw [hbody] at heq <;>
    exact absurd (fromMidiBody_error_msg m nm p og _ heq) (by decide)

/-- Witness for C6: with all arguments supplied the audioMIDI precondition
error is not raised. -/
theorem C6_fromMidi_preconditions_witness :
    fromMidi (some gapMidi600) (some noteMapB60) 480 false ≠
      .error "No audioMIDI provided, please provide an AudioMIDI instance." :=
  (C6_fromMidi_preconditions.2.2.2 gapMidi600 noteMapB60 480 false (by decide)).1

/-- C1 (failing input evaluation): converting a MIDI file whose two Note On
events lie 600 ticks apart at equal PPQN (ratio 1), the 600-tick gap is
written as rest records of 255 + 255 + 90 ticks — summing to exactly 600, none
above 255 — but the second real note record's single-byte ticks field is then
also written with the full value 600 (a `Uint8Array` store keeps 600 mod 256 =
88), so a ticks byte write does exceed 255 and the gap is encoded twice.  The
trailing five 255s and the 45 are the bar rounding up to 1920 ticks. -/
theorem C1_gap600_ticks_byte_overflow :
    (fromMidi (some gapMidi600) (some noteMapB60) 480 false).toOption.map
      (fun r => r.1.map fun rec => rec.ticks) =
      some [0, 255, 255, 90, 600, 255, 255, 255, 255, 255, 45] := by
  decide

/-- C3 (failing input evaluation): a single Note On at absolute time
124800 = 65 * 1920 (PPQN 480, ratio 1) lands exactly on a bar boundary, so the
64-bar cap branch is skipped and `fromMidi` writes the bar count 65 — above
the claimed maximum of 64 — to footer bytes 8 and 14. -/
theorem C3_bars_65_exceed_cap :
    (fromMidi (some capMidi65) (some noteMapB60) 480 false).toOption.map
      (fun r => r.2) =
      some [0, 140, 0, 0, 0, 0, 0, 0, 65, 0, 0, 0, 0, 128, 65, 1] := by
  decide

/-- C9 (counterexample): on a 17-byte buffer the claimed layout reads
`floor(17/8) - 2 = 0` records followed by a 16-byte footer, but `parse`
computes the fractional loop bound `17 / 8 - 2 = 0.125` in JS division, reads
one record, and then underflows reading the footer, so the whole parse fails
instead. -/
theorem C9_fractional_buffer_counterexample :
    parsePattern false 16 8 (List.replicate 17 0) ≠
      specParseLayout false 16 (List.replicate 17 0) := by
  decide

/-- C9 (amended): for every buffer whose byte length is a multiple of 8 and at
least 16, parsed with the default 8-byte stride, `parse` reads exactly
`totalBytes / 8 - 2` note records — each decoded from its 8 bytes in order as
u8 ticks, u8 midiNote, u8 bankSwitch, u8 pitchMode, u8 velocity, u8 reserved
and u16 little-endian length — followed by one 16-byte footer. -/
theorem C9_parse_layout (og : Bool) (padsPerBank : Nat) (bytes : List Nat)
    (h8 : bytes.length % 8 = 0) (h16 : 16 ≤ bytes.length) :
    parsePattern og padsPerBank 8 bytes = specParseLayout og padsPerBank bytes := by
  have hcount : totalNotesIter bytes.length 8 = bytes.length / 8 - 2 := by
    rw [totalNotesIter]
    omega
  simp only [parsePattern, hcount,
    parseNotes_eq og padsPerBank bytes (bytes.length / 8 - 2) 0 (by omega),
    Option.bind_eq_bind, Option.some_bind]
  rw [if_pos (by omega : 8 * (bytes.length / 8 - 2) + 16 ≤ bytes.length)]
  simp only [Option.some_bind, Option.pure_def, specParseLayout, Option.some.injEq,
    Nat.zero_add, Prod.mk.injEq]

/-- Witness for C9 at a well-formed 32-byte buffer (two records + footer). -/
theorem C9_parse_layout_witness :
    (List.replicate 32 7).length % 8 = 0 ∧ 16 ≤ (List.replicate 32 7).length ∧
      parsePattern false 16 8 (List.replicate 32 7) =
        specParseLayout false 16 (List.replicate 32 7) :=
  ⟨by decide, by decide, C9_parse_layout false 16 (List.replicate 32 7) (by decide) (by decide)⟩

/-! ## Structure of the event stream generated by `toMidi` -/

theorem sumTicks_nil : sumTicks [] = 0 := rfl

theorem sumTicks_cons (n : Note) (rest : List Note) :
    sumTicks (n :: rest) = (n.ticks : Int) + sumTicks rest := by
  simp [sumTicks]

theorem sumTicks_nonneg (notes : List Note) : 0 ≤ sumTicks notes := by
  induction notes with
  | nil => simp [sumTicks]
  | cons n rest ih =>
    rw [sumTicks_cons]
    have : (0 : Int) ≤ (n.ticks : Int) := Int.natCast_nonneg _
    omega

theorem toMidiGen_append (noteMap : String → Option Nat) (xs ys : List Note) :
    ∀ t : Int, toMidiGen noteMap (xs ++ ys) t =
      toMidiGen noteMap xs t ++ toMidiGen noteMap ys (t + sumTicks xs) := by
  induction xs with
  | nil => intro t; simp [toMidiGen, sumTicks_nil]
  | cons n rest ih =>
    intro t
    rw [List.cons_append, toMidiGen, toMidiGen, sumTicks_cons, ← add_assoc]
    cases hm : noteMap n.padLabel with
    | none => exact ih (t + n.ticks)
    | some m =>
      by_cases h0 : m = 0
      · simp only [if_pos h0]
        exact ih (t + n.ticks)
      · simp only [if_neg h0]
        rw [ih (t + n.ticks), List.cons_append, List.append_assoc]

theorem toMidiGen_filter_noteOn (noteMap : String → Option Nat) :
    ∀ (notes : List Note) (t : Int),
      (toMidiGen noteMap notes t).filter (fun e => e.type == 0x90) =
        mappedNoteOns noteMap notes t := by
  intro notes
  induction notes with
  | nil => intro t; rfl
  | cons n rest ih =>
    intro t
    rw [toMidiGen, mappedNoteOns]
    cases hm : noteMap n.padLabel with
    | none => exact ih _
    | some m =>
      by_cases h0 : m = 0
      · simp only [if_pos h0]
        exact ih _
      · simp only [if_neg h0]
        by_cases hl : 0 < n.length
        · simp only [if_pos hl, List.filter_cons, List.filter_append, List.filter_cons,
            List.filter_nil]
          norm_num
          exact ih _
        · simp only [if_neg hl, List.filter_cons, List.filter_append, List.filter_nil]
          norm_num
          exact ih _

theorem toMidiGen_filter_noteOff (noteMap : String → Option Nat) :
    ∀ (notes : List Note) (t : Int),
      (toMidiGen noteMap notes t).filter (fun e => e.type == 0x80) =
        mappedNoteOffs noteMap notes t := by
  intro notes
  induction notes with
  | nil => intro t; rfl
  | cons n rest ih =>
    intro t
    rw [toMidiGen, mappedNoteOffs]
    cases hm : noteMap n.padLabel with
    | none => exact ih _
    | some m =>
      by_cases h0 : m = 0
      · simp only [if_pos h0]
        exact ih _
      · simp only [if_neg h0]
        by_cases hl : 0 < n.length
        · simp only [if_pos hl, List.filter_cons, List.filter_append, List.filter_cons,
            List.filter_nil]
          norm_num
          exact ih _
        · simp only [if_neg hl, List.filter_cons, List.filter_append, List.filter_nil]
          norm_num
          exact ih _

theorem toMidiGen_time_le (noteMap : String → Option Nat) :
    ∀ (notes : List Note) (t : Int), ∀ e ∈ toMidiGen noteMap notes t, t ≤ e.absoluteTime := by
  intro notes
  induction notes with
  | nil => intro t e he; simp [toMidiGen] at he
  | cons n rest ih =>
    intro t e he
    rw [toMidiGen] at he
    have hstep : (0 : Int) ≤ (n.ticks : Int) := Int.natCast_nonneg _
    cases hm : noteMap n.padLabel with
    | none =>
      simp only [hm] at he
      have := ih (t + n.ticks) e he
      omega
    | some m =>
      simp only [hm] at he
      by_cases h0 : m = 0
      · rw [if_pos h0] at he
        have := ih (t + n.ticks) e he
        omega
      · rw [if_neg h0] at he
        rcases List.mem_cons.mp he with rfl | hin
        · simp only []
          omega
        · rcases List.mem_append.mp hin with hoff | hrest
          · by_cases hl : 0 < n.length
            · rw [if_pos hl] at hoff
              rcases List.mem_singleton.mp hoff with rfl
              have hlen : (0 : Int) ≤ (n.length : Int) := Int.natCast_nonneg _
              simp only []
              omega
            · rw [if_neg hl] at hoff
              simp at hoff
          · have := ih (t + n.ticks) e hrest
            omega

theorem mappedNoteOns_time_le (noteMap : String → Option Nat) :
    ∀ (notes : List Note) (t : Int), ∀ e ∈ mappedNoteOns noteMap notes t, t ≤ e.absoluteTime := by
  intro notes
  induction notes with
  | nil => intro t e he; simp [mappedNoteOns] at he
  | cons n rest ih =>
    intro t e he
    rw [mappedNoteOns] at he
    have hstep : (0 : Int) ≤ (n.ticks : Int) := Int.natCast_nonneg _
    cases hm : noteMap n.padLabel with
    | none =>
      simp only [hm] at he
      have := ih (t + n.ticks) e he
      omega
    | some m =>
      simp only [hm] at he
      by_cases h0 : m = 0
      · rw [if_pos h0] at he
        have := ih (t + n.ticks) e he
        omega
      · rw [if_neg h0] at he
        rcases List.mem_cons.mp he with rfl | hin
        · simp only []
          omega
        · have := ih (t + n.ticks) e hin
          omega

theorem mappedNoteOns_sorted (noteMap : String → Option Nat) :
    ∀ (notes : List Note) (t : Int), List.Sorted timeLE (mappedNoteOns noteMap notes t) := by
  intro notes
  induction notes with
  | nil => intro t; simp [mappedNoteOns]
  | cons n rest ih =>
    intro t
    rw [mappedNoteOns]
    cases hm : noteMap n.padLabel with
    | none => exact ih _
    | some m =>
      by_cases h0 : m = 0
      · simp only [if_pos h0]
        exact ih _
      · simp only [if_neg h0]
        refine List.sorted_cons.mpr ⟨?_, ih _⟩
        intro b hb
        have := mappedNoteOns_time_le noteMap rest (t + n.ticks) b hb
        exact this

/-! ## Delta conversion and extraction lemmas -/

theorem deltaPrefixSums_assignDeltas :
    ∀ (l : List TimedEvent) (b : Int),
      deltaPrefixSums (assignDeltas l b) b = l.map fun e => e.absoluteTime := by
  intro l
  induction l with
  | nil => intro b; rfl
  | cons e rest ih =>
    intro b
    rw [assignDeltas, deltaPrefixSums]
    have hb : b + (e.absoluteTime - b) = e.absoluteTime := by ring
    simp only [List.map_cons, hb, ih]

theorem assignDeltas_nonneg :
    ∀ (l : List TimedEvent) (b : Int), List.Sorted timeLE l →
      (∀ e ∈ l, b ≤ e.absoluteTime) → ∀ e ∈ assignDeltas l b, 0 ≤ e.deltaTime := by
  intro l
  induction l with
  | nil => intro b _ _ e he; simp [assignDeltas] at he
  | cons x rest ih =>
    intro b hs hb e he
    rw [assignDeltas] at he
    rcases List.mem_cons.mp he with rfl | hin
    · have hx := hb x (List.mem_cons_self _ _)
      show (0 : Int) ≤ x.absoluteTime - b
      omega
    · exact ih x.absoluteTime (List.sorted_cons.mp hs).2
        (fun e' he' => (List.sorted_cons.mp hs).1 e' he') e hin

theorem trackNoteOns_append :
    ∀ (xs ys : List MidiTrackEvent) (acc : Int),
      trackNoteOns (xs ++ ys) acc =
        trackNoteOns xs acc ++ trackNoteOns ys (acc + sumDeltas xs) := by
  intro xs
  induction xs with
  | nil => intro ys acc; simp [trackNoteOns, sumDeltas]
  | cons e rest ih =>
    intro ys acc
    have hsum : acc + sumDeltas (e :: rest) = (acc + e.deltaTime) + sumDeltas rest := by
      simp only [sumDeltas, List.map_cons, List.sum_cons]
      ring
    rw [List.cons_append, trackNoteOns, trackNoteOns, hsum]
    cases hd : e.data with
    | noteData note vel len =>
      simp only [hd]
      by_cases hk : e.type = 0x90 ∧ 0 < vel
      · rw [if_pos hk, ih ys (acc + e.deltaTime), if_pos hk, List.cons_append]
      · rw [if_neg hk, ih ys (acc + e.deltaTime), if_neg hk]
    | otherData =>
      simp only [hd]
      rw [ih ys (acc + e.deltaTime)]

theorem trackNoteOns_assignDeltas :
    ∀ (l : List TimedEvent) (b acc : Int),
      trackNoteOns ((assignDeltas l b).map toTrackEvent) acc =
        (l.filter keepEvt).map fun e =>
          ({ absoluteTime := acc - b + e.absoluteTime, note := e.note,
             velocity := e.velocity, length := e.length } : NoteOnEvent) := by
  intro l
  induction l with
  | nil => intro b acc; rfl
  | cons e rest ih =>
    intro b acc
    rw [assignDeltas, List.map_cons, trackNoteOns]
    simp only [toTrackEvent]
    by_cases hk : e.type = 0x90 ∧ 0 < e.velocity
    · have hkb : keepEvt e = true := by simp [keepEvt, hk]
      rw [if_pos hk, List.filter_cons, hkb]
      simp only [if_true, List.map_cons]
      have hshift : acc + (e.absoluteTime - b) = acc - b + e.absoluteTime := by ring
      rw [hshift, ih e.absoluteTime (acc - b + e.absoluteTime)]
      have hshift2 : acc - b + e.absoluteTime - e.absoluteTime = acc - b := by ring
      rw [hshift2]
    · have hkb : keepEvt e = false := by simp [keepEvt, hk]
      rw [if_neg hk, List.filter_cons, hkb]
      simp only [Bool.false_eq_true, if_false]
      have hshift : acc + (e.absoluteTime - b) = acc - b + e.absoluteTime := by ring
      rw [hshift, ih e.absoluteTime (acc - b + e.absoluteTime)]
      have hshift2 : acc - b + e.absoluteTime - e.absoluteTime = acc - b := by ring
      rw [hshift2]

theorem allNoteOns_toMidiFull (bpm : Option Nat) (ppq : Nat)
    (noteMap : String → Option Nat) (notes : List Note) :
    allNoteOns (toMidiFull bpm ppq noteMap notes) =
      trackNoteOns ((toMidiEvents noteMap notes).map toTrackEvent) 0 := by
  rw [allNoteOns, toMidiFull.eq_def]
  cases bpm with
  | none =>
    simp only [List.filterMap_cons, id, List.flatMap_cons, List.flatMap_nil,
      List.append_nil, List.filterMap_nil, List.nil_append]
    rw [trackNoteOns_append]
    simp [trackNoteOns, trackNameEvent, endOfTrackEvent, sumDeltas]
  | some b =>
    simp only [List.filterMap_cons, id, List.flatMap_cons, List.flatMap_nil,
      List.append_nil, List.filterMap_nil]
    rw [trackNoteOns_append, trackNoteOns_append]
    simp [trackNoteOns, tempoEvent, trackNameEvent, endOfTrackEvent, sumDeltas]

theorem toMidiGen_keepEvt (noteMap : String → Option Nat) (notes : List Note)
    (hv : ∀ n ∈ notes, 0 < n.velocity) :
    ∀ t, ∀ e ∈ toMidiGen noteMap notes t, keepEvt e = (e.type == 0x90) := by
  induction notes with
  | nil => intro t e he; simp [toMidiGen] at he
  | cons n rest ih =>
    intro t e he
    have hv' : ∀ n' ∈ rest, 0 < n'.velocity := fun n' h => hv n' (List.mem_cons_of_mem _ h)
    rw [toMidiGen] at he
    cases hm : noteMap n.padLabel with
    | none =>
      simp only [hm] at he
      exact ih hv' _ e he
    | some m =>
      simp only [hm] at he
      by_cases h0 : m = 0
      · rw [if_pos h0] at he
        exact ih hv' _ e he
      · rw [if_neg h0] at he
        rcases List.mem_cons.mp he with rfl | hin
        · have hnv := hv n (List.mem_cons_self _ _)
          simp [keepEvt, hnv]
        · rcases List.mem_append.mp hin with hoff | hrest
          · by_cases hl : 0 < n.length
            · rw [if_pos hl] at hoff
              rcases List.mem_singleton.mp hoff with rfl
              simp [keepEvt]
            · rw [if_neg hl] at hoff
              simp at hoff
          · exact ih hv' _ e hrest

theorem filter_insertionSort_noteOn (noteMap : String → Option Nat) (notes : List Note) :
    (List.insertionSort timeLE (toMidiGen noteMap notes 0)).filter
        (fun e => e.type == 0x90) =
      mappedNoteOns noteMap notes 0 := by
  have hfilter : (toMidiGen noteMap notes 0).filter (fun e => e.type == 0x90) =
      mappedNoteOns noteMap notes 0 := toMidiGen_filter_noteOn _ _ _
  have hsorted : List.Sorted timeLE (mappedNoteOns noteMap notes 0) :=
    mappedNoteOns_sorted _ _ _
  have hsub : List.Sublist (mappedNoteOns noteMap notes 0) (toMidiGen noteMap notes 0) :=
    hfilter ▸ List.filter_sublist _
  have hsub2 : List.Sublist (mappedNoteOns noteMap notes 0)
      (List.insertionSort timeLE (toMidiGen noteMap notes 0)) :=
    List.sublist_insertionSort hsorted hsub
  have hperm : List.Perm ((List.insertionSort timeLE (toMidiGen noteMap notes 0)).filter
      (fun e => e.type == 0x90)) (mappedNoteOns noteMap notes 0) :=
    hfilter ▸ (List.perm_insertionSort timeLE (toMidiGen noteMap notes 0)).filter _
  have hcp : ∀ e ∈ mappedNoteOns noteMap notes 0, (e.type == 0x90) = true := by
    intro e he
    rw [← hfilter] at he
    exact (List.mem_filter.mp he).2
  have hsub3 : List.Sublist (mappedNoteOns noteMap notes 0)
      ((List.insertionSort timeLE (toMidiGen noteMap notes 0)).filter
        (fun e => e.type == 0x90)) := by
    have h' := List.Sublist.filter (fun e => e.type == 0x90) hsub2
    rwa [List.filter_eq_self.mpr hcp] at h'
  exact (List.Sublist.eq_of_length hsub3 hperm.length_eq.symm).symm

theorem mappedNoteOns_length (noteMap : String → Option Nat) :
    ∀ (notes : List Note), (∀ n ∈ notes, ∃ m, noteMap n.padLabel = some m ∧ m ≠ 0) →
      ∀ t, (mappedNoteOns noteMap notes t).length = notes.length := by
  intro notes
  induction notes with
  | nil => intro _ t; rfl
  | cons n rest ih =>
    intro hmap t
    obtain ⟨m, hm, h0⟩ := hmap n (List.mem_cons_self _ _)
    rw [mappedNoteOns]
    simp only [hm, if_neg h0, List.length_cons]
    rw [ih (fun n' h => hmap n' (List.mem_cons_of_mem _ h)) (t + n.ticks)]

theorem mappedNoteOffs_length (noteMap : String → Option Nat) :
    ∀ (notes : List Note), (∀ n ∈ notes, ∃ m, noteMap n.padLabel = some m ∧ m ≠ 0) →
      ∀ t, (mappedNoteOffs noteMap notes t).length =
        (notes.filter fun n => decide (0 < n.length)).length := by
  intro notes
  induction notes with
  | nil => intro _ t; rfl
  | cons n rest ih =>
    intro hmap t
    obtain ⟨m, hm, h0⟩ := hmap n (List.mem_cons_self _ _)
    rw [mappedNoteOffs, List.filter_cons]
    have ih' := ih (fun n' h => hmap n' (List.mem_cons_of_mem _ h))
    by_cases hl : 0 < n.length
    · simp only [hm, if_neg h0, if_pos hl, decide_eq_true hl, if_true, List.length_cons]
      rw [ih' (t + n.ticks)]
    · have : decide (0 < n.length) = false := by simp [hl]
      simp only [hm, if_neg h0, if_neg hl, this, Bool.false_eq_true, if_false]
      rw [ih' (t + n.ticks)]

/-- C5: for every pattern whose pad labels are all mapped to truthy note
numbers, `toMidi` emits exactly one Note On per note at that note's
accumulated absolute time (the 0x90 events of the generated stream are
`mappedNoteOns`, one per note) plus, exactly when the note's length is
positive, one Note Off at `absoluteTime + length` (the 0x80 events are
`mappedNoteOffs`, one per positive-length note); after sorting the whole list
by absolute time and converting to delta times by successive subtraction from
baseline 0, every emitted event's delta time is nonnegative and the prefix
sums of the delta times equal the sorted absolute times. -/
theorem C5_toMidi_event_generation (noteMap : String → Option Nat) (notes : List Note)
    (hmap : ∀ n ∈ notes, ∃ m, noteMap n.padLabel = some m ∧ m ≠ 0) :
    ((toMidiGen noteMap notes 0).filter (fun e => e.type == 0x90) =
        mappedNoteOns noteMap notes 0) ∧
    ((toMidiGen noteMap notes 0).filter (fun e => e.type == 0x80) =
        mappedNoteOffs noteMap notes 0) ∧
    (mappedNoteOns noteMap notes 0).length = notes.length ∧
    (mappedNoteOffs noteMap notes 0).length =
      (notes.filter fun n => decide (0 < n.length)).length ∧
    (∀ e ∈ toMidiEvents noteMap notes, 0 ≤ e.deltaTime) ∧
    deltaPrefixSums (toMidiEvents noteMap notes) 0 =
      (List.insertionSort timeLE (toMidiGen noteMap notes 0)).map fun e =>
        e.absoluteTime := by
  refine ⟨toMidiGen_filter_noteOn _ _ _, toMidiGen_filter_noteOff _ _ _,
    mappedNoteOns_length _ _ hmap _, mappedNoteOffs_length _ _ hmap _, ?_, ?_⟩
  · intro e he
    rw [toMidiEvents] at he
    refine assignDeltas_nonneg _ 0 (List.sorted_insertionSort timeLE _) ?_ e he
    intro e' he'
    exact toMidiGen_time_le noteMap notes 0 e'
      ((List.mem_insertionSort timeLE).mp he')
  · rw [toMidiEvents, deltaPrefixSums_assignDeltas]

/-- Witness for C5 at a two-note pattern mapped by `noteMapF2`. -/
theorem C5_toMidi_event_generation_witness :
    ((toMidiGen noteMapF2 [sampleNoteA1, sampleNoteB1] 0).filter
        (fun e => e.type == 0x90) =
      mappedNoteOns noteMapF2 [sampleNoteA1, sampleNoteB1] 0) ∧
    ((toMidiGen noteMapF2 [sampleNoteA1, sampleNoteB1] 0).filter
        (fun e => e.type == 0x80) =
      mappedNoteOffs noteMapF2 [sampleNoteA1, sampleNoteB1] 0) ∧
    (mappedNoteOns noteMapF2 [sampleNoteA1, sampleNoteB1] 0).length =
      [sampleNoteA1, sampleNoteB1].length ∧
    (mappedNoteOffs noteMapF2 [sampleNoteA1, sampleNoteB1] 0).length =
      ([sampleNoteA1, sampleNoteB1].filter fun n => decide (0 < n.length)).length ∧
    (∀ e ∈ toMidiEvents noteMapF2 [sampleNoteA1, sampleNoteB1], 0 ≤ e.deltaTime) ∧
    deltaPrefixSums (toMidiEvents noteMapF2 [sampleNoteA1, sampleNoteB1]) 0 =
      (List.insertionSort timeLE (toMidiGen noteMapF2 [sampleNoteA1, sampleNoteB1] 0)).map
        fun e => e.absoluteTime :=
  C5_toMidi_event_generation noteMapF2 [sampleNoteA1, sampleNoteB1] (by
    intro n hn
    rcases List.mem_cons.mp hn with rfl | hn2
    · exact ⟨60, by decide, by decide⟩
    · rcases List.mem_cons.mp hn2 with rfl | hn3
      · exact ⟨61, by decide, by decide⟩
      · simp at hn3)

theorem fromMidiLoop_isSome_iff (og : Bool) (nm : String → Option String) (p q : Nat) :
    ∀ (evts : List NoteOnEvent) (ct ttl la : Int),
      ((fromMidiLoop og nm p q evts ct ttl la).toOption.isSome = true ↔
        ∀ e ∈ evts, ∃ pad entry, nm e.note = some pad ∧ lookupPad og pad = some entry) := by
  intro evts
  induction evts with
  | nil =>
    intro ct ttl la
    simp [fromMidiLoop, Except.toOption]
  | cons e rest ih =>
    intro ct ttl la
    rw [fromMidiLoop]
    cases hnm : nm e.note with
    | none =>
      simp only [hnm]
      constructor
      · intro h
        simp [Except.toOption] at h
      · intro h
        obtain ⟨pad, entry, hp, _⟩ := h e (List.mem_cons_self _ _)
        simp [hnm] at hp
    | some pad =>
      simp only [hnm]
      cases hlp : lookupPad og pad with
      | none =>
        simp only [hlp]
        constructor
        · intro h
          simp [Except.toOption] at h
        · intro h
          obtain ⟨pad', entry, hp, hl⟩ := h e (List.mem_cons_self _ _)
          rw [hnm] at hp
          obtain rfl := Option.some.inj hp
          rw [hlp] at hl
          exact Option.noConfusion hl
      | some entry =>
        simp only [hlp]
        cases hrec : fromMidiLoop og nm p q rest
            (ct + jsRoundDiv ((e.absoluteTime - la) * p) q)
            (ttl + jsRoundDiv ((e.length : Int) * p) q) e.absoluteTime with
        | ok x =>
          simp only [hrec]
          constructor
          · intro _ e' he'
            rcases List.mem_cons.mp he' with rfl | hin
            · exact ⟨pad, entry, hnm, hlp⟩
            · have hr := (ih (ct + jsRoundDiv ((e.absoluteTime - la) * p) q)
                (ttl + jsRoundDiv ((e.length : Int) * p) q) e.absoluteTime).mp
                (by rw [hrec]; rfl)
              exact hr e' hin
          · intro _
            simp [Except.toOption]
        | error msg =>
          simp only [hrec]
          constructor
          · intro h
            simp [Except.toOption] at h
          · intro h
            have hr := (ih (ct + jsRoundDiv ((e.absoluteTime - la) * p) q)
              (ttl + jsRoundDiv ((e.length : Int) * p) q) e.absoluteTime).mpr
              (fun e' he' => h e' (List.mem_cons_of_mem _ he'))
            rw [hrec] at hr
            simp [Except.toOption] at hr

/-- C4 (amended): `toMidi` skips a pattern note whose pad label is unmapped —
the note contributes no event while its ticks still advance the running time,
and the remaining notes are converted as usual — but `fromMidi` does NOT skip
an unmapped Note On: it succeeds exactly when every extracted Note On resolves
through its note map and the hardware table, and raises the destructuring
TypeError otherwise (see `C4_fromMidi_unmapped_throws`). -/
theorem C4_unmapped_handling :
    (∀ (noteMap : String → Option Nat) (p₁ p₂ : List Note) (n : Note) (t : Int),
      noteMap n.padLabel = none →
      toMidiGen noteMap (p₁ ++ n :: p₂) t =
        toMidiGen noteMap p₁ t ++ toMidiGen noteMap p₂ (t + sumTicks p₁ + n.ticks)) ∧
    (∀ (midi : AudioMIDI) (nm : String → Option String) (p : Nat) (og : Bool), p ≠ 0 →
      ((fromMidi (some midi) (some nm) p og).toOption.isSome = true ↔
        ∀ e ∈ allNoteOns midi, ∃ pad entry,
          nm e.note = some pad ∧ lookupPad og pad = some entry)) := by
  constructor
  · intro noteMap p₁ p₂ n t hm
    rw [toMidiGen_append, toMidiGen]
    simp only [hm]
  · intro midi nm p og hp
    have hfm : fromMidi (some midi) (some nm) p og = fromMidiBody midi nm p og := by
      simp [fromMidi, hp]
    rw [hfm, fromMidiBody]
    cases hL : fromMidiLoop og nm p midi.timeDivision
        (List.insertionSort noteOnLE (allNoteOns midi)) 0 0 0 with
    | ok x =>
      simp only [hL]
      constructor
      · intro _ e he
        have hr := (fromMidiLoop_isSome_iff og nm p midi.timeDivision
          (List.insertionSort noteOnLE (allNoteOns midi)) 0 0 0).mp (by rw [hL]; rfl)
        exact hr e ((List.mem_insertionSort noteOnLE).mpr he)
      · intro _
        simp [Except.toOption]
    | error msg =>
      simp only [hL]
      constructor
      · intro h
        simp [Except.toOption] at h
      · intro h
        have hr := (fromMidiLoop_isSome_iff og nm p midi.timeDivision
          (List.insertionSort noteOnLE (allNoteOns midi)) 0 0 0).mpr
          (fun e he => h e ((List.mem_insertionSort noteOnLE).mp he))
        rw [hL] at hr
        simp [Except.toOption] at hr

/-- Witness for C4: the skip equation at a concrete unmapped note, and the
resolvability criterion at a concrete fully-mapped MIDI file. -/
theorem C4_unmapped_handling_witness :
    (toMidiGen noteMapF2 ([sampleNoteA1] ++ unmappedNote :: [sampleNoteB1]) 0 =
      toMidiGen noteMapF2 [sampleNoteA1] 0 ++
        toMidiGen noteMapF2 [sampleNoteB1]
          (0 + sumTicks [sampleNoteA1] + unmappedNote.ticks)) ∧
    ((fromMidi (some gapMidi600) (some noteMapB60) 480 false).toOption.isSome = true ↔
      ∀ e ∈ allNoteOns gapMidi600, ∃ pad entry,
        noteMapB60 e.note = some pad ∧ lookupPad false pad = some entry) :=
  ⟨C4_unmapped_handling.1 noteMapF2 [sampleNoteA1] [sampleNoteB1] unmappedNote 0
     (by decide),
   C4_unmapped_handling.2 gapMidi600 noteMapB60 480 false (by decide)⟩

/-- C4 (counterexample to the claim as stated): `fromMidi` on a MIDI file
whose only Note On carries an unmapped note value raises the TypeError from
destructuring `defaultMap[undefined]` instead of skipping the note. -/
theorem C4_fromMidi_unmapped_throws :
    fromMidi (some unmappedMidi) (some noteMapB60) 480 false =
      .error "TypeError: Cannot destructure property bankSwitch of undefined" := by
  decide

/-! ## Round trip at PPQN ratio 1 -/

theorem jsRoundDiv_ratio_one (v : Int) (p : Nat) (hp : p ≠ 0) :
    jsRoundDiv (v * p) p = v := by
  have hp' : (0 : Int) < p := by exact_mod_cast Nat.pos_of_ne_zero hp
  rw [jsRoundDiv]
  have h1 : 2 * (v * p) + p = (p : Int) * (2 * v + 1) := by ring
  have h2 : 2 * (p : Int) = (p : Int) * 2 := by ring
  rw [h1, h2, Int.mul_ediv_mul_of_pos _ _ hp']
  omega

theorem insertEmptyNotesGo_fields (fuel : Nat) :
    ∀ (gap : Int), ∀ r ∈ insertEmptyNotesGo fuel gap,
      r.midiNote = 128 ∧ r.velocity = 0 ∧ r.length = 0 := by
  induction fuel with
  | zero => intro gap r hr; simp [insertEmptyNotesGo] at hr
  | succ k ih =>
    intro gap r hr
    rw [insertEmptyNotesGo] at hr
    by_cases hg : 0 < gap
    · rw [if_pos hg] at hr
      rcases List.mem_cons.mp hr with rfl | hin
      · exact ⟨rfl, rfl, rfl⟩
      · exact ih _ r hin
    · rw [if_neg hg] at hr
      simp at hr

theorem insertEmptyNotes_fields (gap : Int) :
    ∀ r ∈ insertEmptyNotes gap, r.midiNote = 128 ∧ r.velocity = 0 ∧ r.length = 0 :=
  insertEmptyNotesGo_fields _ _

theorem barRounding_rests (tpb ct ttl : Int) :
    ∀ r ∈ (barRounding tpb ct ttl).1, r.midiNote = 128 ∧ r.velocity = 0 ∧ r.length = 0 := by
  intro r hr
  rw [barRounding] at hr
  split_ifs at hr
  · exact insertEmptyNotes_fields _ r hr
  · exact insertEmptyNotes_fields _ r hr
  · simp at hr
  · simp at hr

theorem allNoteOns_toMidiFull_mapped (bpm : Option Nat) (ppq : Nat)
    (noteMapF : String → Option Nat) (notes : List Note)
    (hv : ∀ n ∈ notes, 0 < n.velocity) :
    allNoteOns (toMidiFull bpm ppq noteMapF notes) =
      (mappedNoteOns noteMapF notes 0).map toNoteOnEvt := by
  rw [allNoteOns_toMidiFull, toMidiEvents, trackNoteOns_assignDeltas]
  have hkeep : (List.insertionSort timeLE (toMidiGen noteMapF notes 0)).filter keepEvt =
      (List.insertionSort timeLE (toMidiGen noteMapF notes 0)).filter
        (fun e => e.type == 0x90) := by
    apply List.filter_congr
    intro e he
    exact toMidiGen_keepEvt noteMapF notes hv 0 e ((List.mem_insertionSort timeLE).mp he)
  rw [hkeep, filter_insertionSort_noteOn]
  apply List.map_congr_left
  intro e _
  simp [toNoteOnEvt]

theorem fromMidiLoop_roundtrip (noteMapF : String → Option Nat)
    (noteMapB : String → Option String) (ppq : Nat) (hppq : ppq ≠ 0) :
    ∀ (notes : List Note) (t ttl0 : Int), 0 ≤ t →
      (∀ n ∈ notes, 0 < n.velocity ∧ n.ticks ≤ 255 ∧
        (∃ m, noteMapF n.padLabel = some m ∧ m ≠ 0 ∧
          noteMapB (toString m) = some n.padLabel) ∧
        (lookupPad false n.padLabel).isSome = true) →
      ∃ recs ctE ttlE,
        fromMidiLoop false noteMapB ppq ppq
            ((mappedNoteOns noteMapF notes t).map toNoteOnEvt) t ttl0 t =
          .ok (recs, ctE, ttlE) ∧
        recs.map recordTuple = notes.map noteTuple ∧
        (∀ r ∈ recs, r.midiNote ≠ 128) := by
  intro notes
  induction notes with
  | nil =>
    intro t ttl0 ht _
    exact ⟨[], t, ttl0, rfl, rfl, by simp⟩
  | cons n rest ih =>
    intro t ttl0 ht hyp
    obtain ⟨hvel, hticks, ⟨m, hm, h0, hback⟩, hlook⟩ := hyp n (List.mem_cons_self _ _)
    obtain ⟨entry, hentry⟩ := Option.isSome_iff_exists.mp hlook
    have hfind : defaultMapList.find? (fun e => e.pad == n.padLabel) = some entry := hentry
    have hmem : entry ∈ defaultMapList := List.mem_of_find?_eq_some hfind
    have hpad : entry.pad = n.padLabel := by
      have h' := List.find?_some hfind
      simpa using h'
    have hlabel : padLabelOf 16 (sampleNumberOf false 16 entry.midiNote entry.bankSwitch) =
        entry.pad := defaultMap_pad_roundtrip entry hmem
    have hne : entry.midiNote ≠ 128 := defaultMap_midiNote_ne_128 entry hmem
    rw [mappedNoteOns]
    simp only [hm, if_neg h0, List.map_cons, toNoteOnEvt]
    rw [fromMidiLoop]
    simp only []
    have habs : t + (n.ticks : Int) - t = (n.ticks : Int) := by ring
    have hticksZ : ((n.ticks : Int)) ≤ 255 := by exact_mod_cast hticks
    obtain ⟨recs, ctE, ttlE, hrec, hmapEq, h128⟩ :=
      ih (t + (n.ticks : Int)) (ttl0 + (n.length : Int)) (by omega)
        (fun n' h => hyp n' (List.mem_cons_of_mem _ h))
    simp only [habs, jsRoundDiv_ratio_one _ _ hppq, hback, hentry, hrec]
    rw [if_neg (by omega : ¬ (255 < (n.ticks : Int) - t))]
    refine ⟨_, ctE, ttlE, rfl, ?_, ?_⟩
    · simp only [List.nil_append, List.map_cons, hmapEq, recordTuple, noteTuple]
      rw [hlabel, hpad]
    · intro r hr
      rcases List.mem_cons.mp (by simpa using hr) with rfl | hin
      · simp only []
        intro hcon
        apply hne
        exact_mod_cast hcon
      · exact h128 r hin

/-- C2 (amended): for every pattern whose notes all have positive velocity,
byte-range ticks and pads that map forward to a truthy MIDI note value and
back to the same pad (which the current-hardware table contains), converting
to MIDI with `toMidi` and back with `fromMidi` at the same PPQN (ratio 1)
succeeds and reconstructs exactly the original ordered list — hence the same
multiset — of (padLabel, ticks, velocity, length) note records as the
non-rest records of the output; every rest record (midiNote 128) appended by
the bar rounding carries velocity 0 and length 0.  (The claim as frozen fails
for velocity-0 notes, which the extraction step drops; see
`C2_zero_velocity_counterexample`.) -/
theorem C2_roundtrip_ratio_one (notes : List Note) (noteMapF : String → Option Nat)
    (noteMapB : String → Option String) (ppq : Nat) (bpm : Option Nat) (hppq : ppq ≠ 0)
    (hnotes : ∀ n ∈ notes, 0 < n.velocity ∧ n.ticks ≤ 255 ∧
      (∃ m, noteMapF n.padLabel = some m ∧ m ≠ 0 ∧
        noteMapB (toString m) = some n.padLabel) ∧
      (lookupPad false n.padLabel).isSome = true) :
    ∃ recs footer,
      fromMidi (some (toMidiFull bpm ppq noteMapF notes)) (some noteMapB) ppq false =
        .ok (recs, footer) ∧
      (recs.filter fun r => r.midiNote ≠ 128).map recordTuple = notes.map noteTuple ∧
      (∀ r ∈ recs, r.midiNote = 128 → r.velocity = 0 ∧ r.length = 0) := by
  have hv : ∀ n ∈ notes, 0 < n.velocity := fun n h => (hnotes n h).1
  have hfm : fromMidi (some (toMidiFull bpm ppq noteMapF notes)) (some noteMapB) ppq false =
      fromMidiBody (toMidiFull bpm ppq noteMapF notes) noteMapB ppq false := by
    simp [fromMidi, hppq]
  have hext := allNoteOns_toMidiFull_mapped bpm ppq noteMapF notes hv
  have hsorted2 : List.Sorted noteOnLE ((mappedNoteOns noteMapF notes 0).map toNoteOnEvt) :=
    List.Pairwise.map toNoteOnEvt (fun a b h => h) (mappedNoteOns_sorted noteMapF notes 0)
  have hsortid : List.insertionSort noteOnLE
      (allNoteOns (toMidiFull bpm ppq noteMapF notes)) =
      (mappedNoteOns noteMapF notes 0).map toNoteOnEvt := by
    rw [hext]
    exact List.Sorted.insertionSort_eq hsorted2
  obtain ⟨recs0, ctE, ttlE, hloop, hmapEq, h128⟩ :=
    fromMidiLoop_roundtrip noteMapF noteMapB ppq hppq notes 0 0 le_rfl hnotes
  have htd : (toMidiFull bpm ppq noteMapF notes).timeDivision = ppq := rfl
  rw [hfm, fromMidiBody, htd, hsortid]
  simp only [hloop]
  refine ⟨_, _, rfl, ?_, ?_⟩
  · rw [List.filter_append]
    have hfr : recs0.filter (fun r => decide (r.midiNote ≠ 128)) = recs0 :=
      List.filter_eq_self.mpr fun r hr => decide_eq_true (h128 r hr)
    have hfr2 : ((barRounding ((ppq : Int) * 4) ctE ttlE).1).filter
        (fun r => decide (r.midiNote ≠ 128)) = [] := by
      rw [List.filter_eq_nil_iff]
      intro r hr
      have h1 := (barRounding_rests _ _ _ r hr).1
      simp [h1]
    rw [hfr, hfr2, List.append_nil, hmapEq]
  · intro r hr
    rcases List.mem_append.mp hr with h1 | h2
    · intro hcon
      exact absurd hcon (h128 r h1)
    · intro _
      have h3 := barRounding_rests _ _ _ r h2
      exact ⟨h3.2.1, h3.2.2⟩

/-- Witness for C2 at a two-note pattern on pads A1 and B1. -/
theorem C2_roundtrip_ratio_one_witness :
    ∃ recs footer,
      fromMidi (some (toMidiFull (some 120) 480 noteMapF2 [sampleNoteA1, sampleNoteB1]))
          (some noteMapB2) 480 false = .ok (recs, footer) ∧
      (recs.filter fun r => r.midiNote ≠ 128).map recordTuple =
        [sampleNoteA1, sampleNoteB1].map noteTuple ∧
      (∀ r ∈ recs, r.midiNote = 128 → r.velocity = 0 ∧ r.length = 0) :=
  C2_roundtrip_ratio_one [sampleNoteA1, sampleNoteB1] noteMapF2 noteMapB2 480 (some 120)
    (by decide)
    (by
      intro n hn
      rcases List.mem_cons.mp hn with rfl | hn2
      · exact ⟨by decide, by decide, ⟨60, by decide, by decide, by decide⟩, by decide⟩
      · rcases List.mem_cons.mp hn2 with rfl | hn3
        · exact ⟨by decide, by decide, ⟨61, by decide, by decide, by decide⟩, by decide⟩
        · simp at hn3)

/-- C2 (counterexample to the claim as stated): a one-note pattern on the
mapped pad A1 whose velocity is 0 satisfies the claim's premise (its pad has a
map entry, the PPQN ratio is 1), yet the round trip reconstructs no note
record at all — `fromMidi` extracts only Note On events with positive
velocity — so the multiset of (padLabel, ticks, velocity, length) records is
not preserved. -/
theorem C2_zero_velocity_counterexample :
    (fromMidi (some (toMidiFull none 480 noteMapF2 [zeroVelNote])) (some noteMapB2)
        480 false).toOption.map
      (fun r => (r.1.filter fun rec => rec.midiNote ≠ 128).map recordTuple) = some [] ∧
    [zeroVelNote].map noteTuple = [("A1", 0, 0, 0)] := by
  constructor
  · decide
  · decide

end AudioPattern
